import Mathlib

/-!
Verification development for the OpenAPI-to-HttpApi generation pipeline
(alchemy-gen). The definitions below are shallow embeddings of the
TypeScript source: strings are Lean strings (ASCII case mapping models the
JavaScript one), JSON-ish documents are a `Json` inductive, fallible code
returns `Option`/`Except`, and calls into external libraries (the WHATWG
URL parser, the `$ref` dereferencer, the Effect Schema decoder, the file
pipeline's filesystem stage) are explicit function parameters of the
embedded definitions.
-/

/-! ## Character model (ASCII fragment of the JavaScript string functions) -/

/-- Auxiliary fact about `Char.ofNat` on valid code points below the
surrogate range. -/
theorem char_toNat_ofNat_valid (n : Nat) (h : n < 55296) : (Char.ofNat n).toNat = n := by
  unfold Char.ofNat
  have hv : n.isValidChar := Or.inl h
  simp only [hv, dite_true, Char.ofNatAux, Char.toNat]
  show (UInt32.ofNat' n _).toNat = n
  simp [UInt32.ofNat', UInt32.toNat]

/-- Lowercase ASCII letter test, the `[a-z]` character class. -/
def isLowerAZ (c : Char) : Bool := 97 ≤ c.toNat && c.toNat ≤ 122

/-- Uppercase ASCII letter test, the `[A-Z]` character class. -/
def isUpperAZ (c : Char) : Bool := 65 ≤ c.toNat && c.toNat ≤ 90

/-- ASCII model of JavaScript `String.prototype.toUpperCase` on one character. -/
def jsToUpper (c : Char) : Char :=
  if isLowerAZ c then Char.ofNat (c.toNat - 32) else c

/-- ASCII model of JavaScript `String.prototype.toLowerCase` on one character. -/
def jsToLower (c : Char) : Char :=
  if isUpperAZ c then Char.ofNat (c.toNat + 32) else c

/-- ASCII whitespace, the `\s` regex class restricted to ASCII
(space 32, tab 9, newline 10, carriage return 13, vertical tab 11,
form feed 12). -/
def isJsWhitespace (c : Char) : Bool :=
  c.toNat == 32 || c.toNat == 9 || c.toNat == 10 || c.toNat == 13 ||
  c.toNat == 11 || c.toNat == 12

theorem isLowerAZ_jsToUpper (c : Char) : isLowerAZ (jsToUpper c) = false := by
  unfold jsToUpper
  split
  · rename_i h
    unfold isLowerAZ at h ⊢
    simp only [Bool.and_eq_true, decide_eq_true_eq] at h
    rw [char_toNat_ofNat_valid (c.toNat - 32) (by omega)]
    simp only [Bool.and_eq_false_iff, decide_eq_false_iff_not]
    omega
  · rename_i h
    simpa using h

theorem isUpperAZ_jsToLower (c : Char) : isUpperAZ (jsToLower c) = false := by
  unfold jsToLower
  split
  · rename_i h
    unfold isUpperAZ at h ⊢
    simp only [Bool.and_eq_true, decide_eq_true_eq] at h
    rw [char_toNat_ofNat_valid (c.toNat + 32) (by omega)]
    simp only [Bool.and_eq_false_iff, decide_eq_false_iff_not]
    omega
  · rename_i h
    simpa using h

/-! ## String helpers shared by several embedded functions -/

/-- JavaScript `s.startsWith(p)`. -/
def strStartsWith (s p : String) : Bool := List.isPrefixOf p.data s.data

/-- JavaScript `s.endsWith(p)`. -/
def strEndsWith (s p : String) : Bool := List.isSuffixOf p.data s.data

/-- JavaScript `s.includes(p)`. -/
def strIncludes (s p : String) : Bool := decide (p.data <:+: s.data)

/-- JavaScript `s.toUpperCase()` (ASCII). -/
def jsToUpperStr (s : String) : String := ⟨s.data.map jsToUpper⟩

/-- JavaScript `s.toLowerCase()` (ASCII). -/
def jsToLowerStr (s : String) : String := ⟨s.data.map jsToLower⟩

/-! ## Naming conversions (src/generator/endpoint-generator.ts, lines 299-314;
the same two private helpers are duplicated verbatim in
schema-generator.ts and the HttpApiGenerator) -/

/-- Delimiter class of the split step of `toPascalCase`, the regex `[-_\s]`
(dash 45, underscore 95, whitespace). -/
def isPascalDelim (c : Char) : Bool := c.toNat == 45 || c.toNat == 95 || isJsWhitespace c

/-- First step of `toPascalCase`: the replacement
`str.replace(/([a-z])([A-Z])/g, "$1 $2")`, inserting one space between a
lowercase letter and an uppercase letter. (The regex engine consumes both
matched characters, but since the second one is uppercase it can never start
another match, so examining every adjacent pair is equivalent.) -/
def camelSplit : List Char → List Char
  | [] => []
  | [c] => [c]
  | c1 :: c2 :: rest =>
    if isLowerAZ c1 && isUpperAZ c2 then c1 :: ' ' :: camelSplit (c2 :: rest)
    else c1 :: camelSplit (c2 :: rest)

/-- Second step of `toPascalCase`: `split(/[-_\s]+/)`. A maximal run of
delimiters produces one boundary; leading and trailing runs produce empty
pieces, as in JavaScript. -/
def splitDelim : List Char → List (List Char)
  | [] => [[]]
  | c :: cs =>
    if isPascalDelim c then
      match cs with
      | c2 :: _ => if isPascalDelim c2 then splitDelim cs else [] :: splitDelim cs
      | [] => [] :: splitDelim cs
    else
      match splitDelim cs with
      | w :: ws => (c :: w) :: ws
      | [] => [[c]]

/-- Third step of `toPascalCase`:
`word.charAt(0).toUpperCase() + word.slice(1)`. -/
def capitalizeWord : List Char → List Char
  | [] => []
  | c :: rest => jsToUpper c :: rest

/-- EndpointGenerator.toPascalCase (endpoint-generator.ts lines 299-306):
split camelCase boundaries, split on delimiters, capitalize each word and
concatenate. -/
def toPascalCase (s : String) : String :=
  ⟨(List.map capitalizeWord (splitDelim (camelSplit s.data))).flatten⟩

/-- Character class `[\s_]` of the second replacement in `toKebabCase`. -/
def isKebabWs (c : Char) : Bool := isJsWhitespace c || c.toNat == 95

/-- First step of `toKebabCase`: `str.replace(/([a-z])([A-Z])/g, "$1-$2")`. -/
def kebabCamelSplit : List Char → List Char
  | [] => []
  | [c] => [c]
  | c1 :: c2 :: rest =>
    if isLowerAZ c1 && isUpperAZ c2 then c1 :: '-' :: kebabCamelSplit (c2 :: rest)
    else c1 :: kebabCamelSplit (c2 :: rest)

/-- Second step of `toKebabCase`: `replace(/[\s_]+/g, "-")`, collapsing each
maximal run of whitespace or underscores into a single dash. -/
def replaceRunsWs : List Char → List Char
  | [] => []
  | c :: cs =>
    if isKebabWs c then
      match cs with
      | c2 :: _ =>
        if isKebabWs c2 then replaceRunsWs cs else '-' :: replaceRunsWs cs
      | [] => ['-']
    else c :: replaceRunsWs cs

/-- EndpointGenerator.toKebabCase (endpoint-generator.ts lines 308-313). -/
def toKebabCase (s : String) : String :=
  ⟨(replaceRunsWs (kebabCamelSplit s.data)).map jsToLower⟩

example : toPascalCase "create-user" = "CreateUser" := by decide
example : toPascalCase "createUser" = "CreateUser" := by decide
example : toPascalCase "CreateUser" = "CreateUser" := by decide
example : toKebabCase "CreateUser" = "create-user" := by decide
example : toKebabCase "user_settings" = "user-settings" := by decide

/-! ## Idempotence of the naming conversions (claim C7) -/

theorem isLowerAZ_of_isUpperAZ {c : Char} (h : isUpperAZ c = true) : isLowerAZ c = false := by
  unfold isUpperAZ at h
  unfold isLowerAZ
  simp only [Bool.and_eq_true, decide_eq_true_eq] at h
  simp only [Bool.and_eq_false_iff, decide_eq_false_iff_not]
  omega

theorem isPascalDelim_of_isLowerAZ {c : Char} (h : isLowerAZ c = true) :
    isPascalDelim c = false := by
  unfold isLowerAZ at h
  unfold isPascalDelim isJsWhitespace
  simp only [Bool.and_eq_true, decide_eq_true_eq] at h
  simp only [Bool.or_eq_false_iff, beq_eq_false_iff_ne, ne_eq]
  omega

theorem isPascalDelim_of_isUpperAZ {c : Char} (h : isUpperAZ c = true) :
    isPascalDelim c = false := by
  unfold isUpperAZ at h
  unfold isPascalDelim isJsWhitespace
  simp only [Bool.and_eq_true, decide_eq_true_eq] at h
  simp only [Bool.or_eq_false_iff, beq_eq_false_iff_ne, ne_eq]
  omega

theorem jsToUpper_eq_self {c : Char} (h : isLowerAZ c = false) : jsToUpper c = c := by
  unfold jsToUpper
  simp [h]

theorem jsToLower_eq_self {c : Char} (h : isUpperAZ c = false) : jsToLower c = c := by
  unfold jsToLower
  simp [h]

theorem isPascalDelim_jsToUpper {c : Char} (h : isPascalDelim c = false) :
    isPascalDelim (jsToUpper c) = false := by
  unfold jsToUpper
  split
  · rename_i hl
    exact isPascalDelim_of_isUpperAZ (by
      unfold isLowerAZ at hl
      unfold isUpperAZ
      simp only [Bool.and_eq_true, decide_eq_true_eq] at hl
      rw [char_toNat_ofNat_valid (c.toNat - 32) (by omega)]
      simp only [Bool.and_eq_true, decide_eq_true_eq]
      omega)
  · exact h

/-- Proof helper: the decomposition of a delimiter-free string at its
lowercase-uppercase boundaries. `splitDelim (camelSplit t)` computes exactly
this decomposition when `t` contains no delimiter characters. -/
def boundarySplit : List Char → List (List Char)
  | [] => [[]]
  | [c] => [[c]]
  | c1 :: c2 :: rest =>
    if isLowerAZ c1 && isUpperAZ c2 then
      [c1] :: boundarySplit (c2 :: rest)
    else
      match boundarySplit (c2 :: rest) with
      | w :: ws => (c1 :: w) :: ws
      | [] => [[c1]]

theorem boundarySplit_ne_nil (t : List Char) : boundarySplit t ≠ [] := by
  match t with
  | [] => simp [boundarySplit]
  | [c] => simp [boundarySplit]
  | c1 :: c2 :: rest =>
    unfold boundarySplit
    split
    · simp
    · split <;> simp

theorem boundarySplit_head (c : Char) (cs : List Char) :
    ∃ w ws, boundarySplit (c :: cs) = (c :: w) :: ws := by
  match cs with
  | [] => exact ⟨[], [], rfl⟩
  | c2 :: rest =>
    unfold boundarySplit
    split
    · exact ⟨[], boundarySplit (c2 :: rest), rfl⟩
    · split
      · rename_i w ws h
        exact ⟨w, ws, rfl⟩
      · exact ⟨[], [], rfl⟩

theorem boundarySplit_flatten : ∀ (t : List Char), (boundarySplit t).flatten = t
  | [] => by simp [boundarySplit]
  | [c] => by simp [boundarySplit]
  | c1 :: c2 :: rest => by
    have ih := boundarySplit_flatten (c2 :: rest)
    unfold boundarySplit
    split
    · simpa using ih
    · cases hb : boundarySplit (c2 :: rest) with
      | nil => exact absurd hb (boundarySplit_ne_nil _)
      | cons w ws =>
        rw [hb] at ih
        simp only [List.flatten_cons] at ih ⊢
        simp [ih]

theorem camelSplit_head (c : Char) (cs : List Char) :
    ∃ t, camelSplit (c :: cs) = c :: t := by
  match cs with
  | [] => exact ⟨[], rfl⟩
  | c2 :: rest =>
    unfold camelSplit
    split
    · exact ⟨' ' :: camelSplit (c2 :: rest), rfl⟩
    · exact ⟨camelSplit (c2 :: rest), rfl⟩

theorem splitDelim_camelSplit_eq_boundarySplit :
    ∀ (t : List Char), (∀ c ∈ t, isPascalDelim c = false) →
      splitDelim (camelSplit t) = boundarySplit t
  | [], _ => by simp [camelSplit, splitDelim, boundarySplit]
  | [c], hnd => by
    have hc : isPascalDelim c = false := hnd c (by simp)
    simp [camelSplit, splitDelim, boundarySplit, hc]
  | c1 :: c2 :: rest, hnd => by
    have hc1 : isPascalDelim c1 = false := hnd c1 (by simp)
    have hc2 : isPascalDelim c2 = false := hnd c2 (by simp)
    have hnd' : ∀ c ∈ c2 :: rest, isPascalDelim c = false := fun c hc => hnd c (by simp [hc])
    have ih := splitDelim_camelSplit_eq_boundarySplit (c2 :: rest) hnd'
    obtain ⟨t', ht'⟩ := camelSplit_head c2 rest
    unfold camelSplit boundarySplit
    split
    · -- boundary: a space is inserted, producing a fresh piece starting at c2
      rw [ht'] at ih ⊢
      have hsp : isPascalDelim ' ' = true := by decide
      simp only [splitDelim, hc1, hsp, hc2, Bool.false_eq_true, if_false, if_true] at ih ⊢
      rw [ih]
    · -- no boundary: c1 is prepended to the first piece
      rw [ht'] at ih ⊢
      simp only [splitDelim, hc1, hc2, Bool.false_eq_true, if_false] at ih ⊢
      rw [ih]

theorem boundarySplit_tail_capitalize :
    ∀ (t : List Char) (w : List Char) (ws : List (List Char)),
      boundarySplit t = w :: ws → ws.map capitalizeWord = ws
  | [], w, ws, h => by
    simp only [boundarySplit, List.cons.injEq] at h
    obtain ⟨h1, h2⟩ := h
    subst h2
    simp
  | [c], w, ws, h => by
    simp only [boundarySplit, List.cons.injEq] at h
    obtain ⟨h1, h2⟩ := h
    subst h2
    simp
  | c1 :: c2 :: rest, w, ws, h => by
    unfold boundarySplit at h
    split at h
    · rename_i hba
      simp only [List.cons.injEq] at h
      obtain ⟨hw, hws⟩ := h
      obtain ⟨w', ws', hb⟩ := boundarySplit_head c2 rest
      have ih := boundarySplit_tail_capitalize (c2 :: rest) (c2 :: w') ws' hb
      rw [← hws, hb]
      simp only [List.map_cons, ih]
      have hupper : isUpperAZ c2 = true := by
        simp only [Bool.and_eq_true] at hba
        exact hba.2
      simp [capitalizeWord, jsToUpper_eq_self (isLowerAZ_of_isUpperAZ hupper)]
    · cases hb : boundarySplit (c2 :: rest) with
      | nil => exact absurd hb (boundarySplit_ne_nil _)
      | cons w2 ws2 =>
        rw [hb] at h
        simp only [List.cons.injEq] at h
        obtain ⟨hw, hws⟩ := h
        rw [← hws]
        exact boundarySplit_tail_capitalize (c2 :: rest) w2 ws2 hb

theorem boundarySplit_capitalize_fix (t : List Char)
    (hhead : ∀ c, t.head? = some c → isLowerAZ c = false) :
    (boundarySplit t).map capitalizeWord = boundarySplit t := by
  match t with
  | [] => simp [boundarySplit, capitalizeWord]
  | c :: cs =>
    obtain ⟨w, ws, hb⟩ := boundarySplit_head c cs
    rw [hb]
    simp only [List.map_cons]
    rw [boundarySplit_tail_capitalize (c :: cs) (c :: w) ws hb]
    simp [capitalizeWord, jsToUpper_eq_self (hhead c (by simp))]

theorem splitDelim_pieces_no_delim :
    ∀ (u : List Char), ∀ w ∈ splitDelim u, ∀ c ∈ w, isPascalDelim c = false
  | [], w, hw, c, hc => by
    simp [splitDelim] at hw
    subst hw
    simp at hc
  | d :: cs, w, hw, c, hc => by
    unfold splitDelim at hw
    split at hw
    · rename_i hd
      have key : w = [] ∨ w ∈ splitDelim cs := by
        cases cs with
        | nil =>
          simp only [List.mem_cons] at hw
          exact hw.imp id (fun h => by simpa [splitDelim] using List.mem_singleton.mpr (by simpa [splitDelim] using h))
        | cons c2 cs' =>
          cases hc2 : isPascalDelim c2 with
          | true =>
            simp only [hc2] at hw
            exact Or.inr hw
          | false =>
            simp only [hc2] at hw
            simp only [Bool.false_eq_true, if_false, List.mem_cons] at hw
            exact hw
      cases key with
      | inl h => subst h; simp at hc
      | inr h => exact splitDelim_pieces_no_delim cs w h c hc
    · rename_i hd
      cases hs : splitDelim cs with
      | nil =>
        rw [hs] at hw
        simp only [List.mem_singleton] at hw
        subst hw
        simp only [List.mem_singleton] at hc
        subst hc
        simpa using hd
      | cons w2 ws2 =>
        rw [hs] at hw
        simp only [List.mem_cons] at hw
        cases hw with
        | inl h =>
          subst h
          simp only [List.mem_cons] at hc
          cases hc with
          | inl h2 => subst h2; simpa using hd
          | inr h2 =>
            exact splitDelim_pieces_no_delim cs w2 (hs ▸ List.mem_cons_self w2 ws2) c h2
        | inr h =>
          exact splitDelim_pieces_no_delim cs w (hs ▸ List.mem_cons_of_mem w2 h) c hc

/-- Proof helper: the character-list core of `toPascalCase`. -/
def pascalChars (l : List Char) : List Char :=
  (List.map capitalizeWord (splitDelim (camelSplit l))).flatten

theorem capitalizeWord_no_delim {w : List Char}
    (hw : ∀ c ∈ w, isPascalDelim c = false) :
    ∀ c ∈ capitalizeWord w, isPascalDelim c = false := by
  match w with
  | [] => simp [capitalizeWord]
  | c0 :: rest =>
    intro c hc
    simp only [capitalizeWord, List.mem_cons] at hc
    cases hc with
    | inl h =>
      subst h
      exact isPascalDelim_jsToUpper (hw c0 (by simp))
    | inr h => exact hw c (by simp [h])

theorem pascalChars_no_delim (l : List Char) :
    ∀ c ∈ pascalChars l, isPascalDelim c = false := by
  intro c hc
  unfold pascalChars at hc
  rw [List.mem_flatten] at hc
  obtain ⟨w', hw', hcw⟩ := hc
  rw [List.mem_map] at hw'
  obtain ⟨w, hw, hcap⟩ := hw'
  subst hcap
  exact capitalizeWord_no_delim (splitDelim_pieces_no_delim _ w hw) c hcw

theorem flatten_caps_head :
    ∀ (L : List (List Char)) (c : Char),
      ((L.map capitalizeWord).flatten).head? = some c → isLowerAZ c = false
  | [], c, h => by simp at h
  | w :: L', c, h => by
    match w with
    | [] =>
      simp only [List.map_cons, capitalizeWord, List.flatten_cons, List.nil_append] at h
      exact flatten_caps_head L' c h
    | c0 :: rest =>
      simp only [List.map_cons, capitalizeWord, List.flatten_cons, List.cons_append,
        List.head?_cons, Option.some.injEq] at h
      subst h
      exact isLowerAZ_jsToUpper c0

theorem pascalChars_head_not_lower (l : List Char) :
    ∀ c, (pascalChars l).head? = some c → isLowerAZ c = false := by
  intro c h
  exact flatten_caps_head _ c h

theorem pascalChars_idem (l : List Char) : pascalChars (pascalChars l) = pascalChars l := by
  rw [show pascalChars (pascalChars l)
      = (List.map capitalizeWord (splitDelim (camelSplit (pascalChars l)))).flatten from rfl]
  rw [splitDelim_camelSplit_eq_boundarySplit (pascalChars l) (pascalChars_no_delim l)]
  rw [boundarySplit_capitalize_fix (pascalChars l) (pascalChars_head_not_lower l)]
  exact boundarySplit_flatten (pascalChars l)

/-- Proof helper: the character-list core of `toKebabCase`. -/
def kebabChars (l : List Char) : List Char :=
  (replaceRunsWs (kebabCamelSplit l)).map jsToLower

theorem isKebabWs_dash : isKebabWs '-' = false := by decide

theorem replaceRunsWs_no_ws :
    ∀ (u : List Char), ∀ c ∈ replaceRunsWs u, isKebabWs c = false
  | [], c, hc => by simp [replaceRunsWs] at hc
  | d :: cs, c, hc => by
    unfold replaceRunsWs at hc
    split at hc
    · rename_i hd
      cases cs with
      | nil =>
        simp only [List.mem_singleton] at hc
        subst hc
        exact isKebabWs_dash
      | cons c2 cs' =>
        cases hc2 : isKebabWs c2 with
        | true =>
          simp only [hc2] at hc
          exact replaceRunsWs_no_ws (c2 :: cs') c hc
        | false =>
          simp only [hc2, Bool.false_eq_true, if_false, List.mem_cons] at hc
          cases hc with
          | inl h => subst h; exact isKebabWs_dash
          | inr h => exact replaceRunsWs_no_ws (c2 :: cs') c h
    · rename_i hd
      simp only [List.mem_cons] at hc
      cases hc with
      | inl h => subst h; simpa using hd
      | inr h => exact replaceRunsWs_no_ws cs c h

theorem isKebabWs_jsToLower {c : Char} (h : isKebabWs c = false) :
    isKebabWs (jsToLower c) = false := by
  unfold jsToLower
  split
  · rename_i hu
    unfold isUpperAZ at hu
    simp only [Bool.and_eq_true, decide_eq_true_eq] at hu
    unfold isKebabWs isJsWhitespace
    rw [char_toNat_ofNat_valid (c.toNat + 32) (by omega)]
    simp only [Bool.or_eq_false_iff, beq_eq_false_iff_ne, ne_eq]
    omega
  · exact h

theorem kebabChars_no_upper (l : List Char) :
    ∀ c ∈ kebabChars l, isUpperAZ c = false := by
  intro c hc
  unfold kebabChars at hc
  rw [List.mem_map] at hc
  obtain ⟨c0, _, hlow⟩ := hc
  subst hlow
  exact isUpperAZ_jsToLower c0

theorem kebabChars_no_ws (l : List Char) :
    ∀ c ∈ kebabChars l, isKebabWs c = false := by
  intro c hc
  unfold kebabChars at hc
  rw [List.mem_map] at hc
  obtain ⟨c0, hc0, hlow⟩ := hc
  subst hlow
  exact isKebabWs_jsToLower (replaceRunsWs_no_ws _ c0 hc0)

theorem kebabCamelSplit_fix :
    ∀ (t : List Char), (∀ c ∈ t, isUpperAZ c = false) → kebabCamelSplit t = t
  | [], _ => rfl
  | [c], _ => rfl
  | c1 :: c2 :: rest, hnu => by
    have h2 : isUpperAZ c2 = false := hnu c2 (by simp)
    have ih := kebabCamelSplit_fix (c2 :: rest) (fun c hc => hnu c (by simp [hc]))
    unfold kebabCamelSplit
    simp only [h2, Bool.and_false, Bool.false_eq_true, if_false]
    rw [ih]

theorem replaceRunsWs_fix :
    ∀ (t : List Char), (∀ c ∈ t, isKebabWs c = false) → replaceRunsWs t = t
  | [], _ => rfl
  | d :: cs, hnw => by
    have hd : isKebabWs d = false := hnw d (by simp)
    have ih := replaceRunsWs_fix cs (fun c hc => hnw c (by simp [hc]))
    unfold replaceRunsWs
    simp only [hd, Bool.false_eq_true, if_false]
    rw [ih]

theorem mapToLower_fix :
    ∀ (t : List Char), (∀ c ∈ t, isUpperAZ c = false) → t.map jsToLower = t
  | [], _ => rfl
  | c :: cs, hnu => by
    simp only [List.map_cons]
    rw [jsToLower_eq_self (hnu c (by simp)),
      mapToLower_fix cs (fun c hc => hnu c (by simp [hc]))]

theorem kebabChars_idem (l : List Char) : kebabChars (kebabChars l) = kebabChars l := by
  rw [show kebabChars (kebabChars l)
      = (replaceRunsWs (kebabCamelSplit (kebabChars l))).map jsToLower from rfl]
  rw [kebabCamelSplit_fix (kebabChars l) (kebabChars_no_upper l)]
  rw [replaceRunsWs_fix (kebabChars l) (kebabChars_no_ws l)]
  exact mapToLower_fix (kebabChars l) (kebabChars_no_upper l)

/-- C7: the naming conversions are idempotent — for every input string,
`toPascalCase (toPascalCase s) = toPascalCase s` and
`toKebabCase (toKebabCase s) = toKebabCase s` — and on the claim's concrete
examples `toPascalCase` sends "create-user", "createUser" and "CreateUser"
all to "CreateUser". -/
theorem c7_naming_conversions_idempotent :
    (∀ s : String, toPascalCase (toPascalCase s) = toPascalCase s) ∧
    (∀ s : String, toKebabCase (toKebabCase s) = toKebabCase s) ∧
    toPascalCase "create-user" = "CreateUser" ∧
    toPascalCase "createUser" = "CreateUser" ∧
    toPascalCase "CreateUser" = "CreateUser" := by
  refine ⟨fun s => ?_, fun s => ?_, by decide, by decide, by decide⟩
  · show (⟨pascalChars (toPascalCase s).data⟩ : String) = ⟨pascalChars s.data⟩
    have : (toPascalCase s).data = pascalChars s.data := rfl
    rw [this, pascalChars_idem]
  · show (⟨kebabChars (toKebabCase s).data⟩ : String) = ⟨kebabChars s.data⟩
    have : (toKebabCase s).data = kebabChars s.data := rfl
    rw [this, kebabChars_idem]

/-! ## Generic structured values (the parsed JSON/YAML documents) -/

/-- Untyped structured value produced by the Reader: the plain-data subset of
JavaScript values that safe JSON/YAML parsing can yield. Numbers are modelled
as integers (no claim depends on fractional values). -/
inductive Json where
  | null : Json
  | bool (b : Bool) : Json
  | num (n : Int) : Json
  | str (s : String) : Json
  | arr (items : List Json) : Json
  | obj (fields : List (String × Json)) : Json

/-- Property lookup on an object value: `record[key]`, `undefined` (`none`)
for missing keys and for non-object values. -/
def Json.getProp (j : Json) (key : String) : Option Json :=
  match j with
  | .obj fields => (fields.find? (fun f => f.1 == key)).map (·.2)
  | _ => none

mutual

/-- ReferenceResolver.extractReferencePaths (ref-resolver.ts lines 89-119):
recursive walk over objects and arrays recording each string-valued `$ref`
occurrence, the `$ref` at a node first, then its properties in declaration
order. The two helpers embed the `forEach` loops over object entries and
array items. -/
def extractReferencePaths : Json → List String
  | .obj fields =>
    (match (fields.find? (fun f => f.1 == "$ref")).map (·.2) with
     | some (.str r) => [r]
     | _ => []) ++
    extractReferencePathsFields fields
  | .arr items => extractReferencePathsItems items
  | _ => []

def extractReferencePathsFields : List (String × Json) → List String
  | [] => []
  | (_, value) :: rest => extractReferencePaths value ++ extractReferencePathsFields rest

def extractReferencePathsItems : List Json → List String
  | [] => []
  | item :: rest => extractReferencePaths item ++ extractReferencePathsItems rest

end

/-- Helper to determine if a reference is internal (`isInternalReference`,
ref-resolver.ts line 303). -/
def isInternalReference (ref : String) : Bool := strStartsWith ref "#/"

/-- Helper to determine if a reference is external (`isExternalReference`). -/
def isExternalReference (ref : String) : Bool := !isInternalReference ref

/-- ReferenceClassification (ref-resolver.ts). -/
structure ReferenceClassification where
  internal : List String
  external : List String
deriving DecidableEq

/-- classifyReferences (ref-resolver.ts lines 320-325). -/
def classifyReferences (referencePaths : List String) : ReferenceClassification :=
  { internal := referencePaths.filter isInternalReference
    external := referencePaths.filter isExternalReference }

/-! ## ReferenceResolver security gate (src/parser/ref-resolver.ts) -/

/-- Outcome of the WHATWG URL parser (`new url.URL(refUrl)`), which is an
external library: the protocol including its trailing colon (e.g. "http:"),
and the serialized hostname. The parser itself enters the embedding as a
function parameter `parse`; a `none` result models the constructor throwing. -/
structure ParsedUrl where
  protocol : String
  hostname : String
deriving DecidableEq

/-- RefResolutionOptions (ref-resolver.ts lines 12-19); every field is
optional in the source. -/
structure RefResolutionOptions where
  resolveExternal : Option Bool := none
  dereferenceInternal : Option Bool := none
  continueOnError : Option Bool := none
  allowedDomains : Option (List String) := none
  maxRedirects : Option Nat := none
  timeout : Option Nat := none

/-- defaultRefResolutionOptions (ref-resolver.ts lines 24-31). -/
def defaultRefResolutionOptions : RefResolutionOptions :=
  { resolveExternal := some false
    dereferenceInternal := some true
    continueOnError := some false
    allowedDomains := some []
    maxRedirects := some 0
    timeout := some 5000 }

/-- Errors raised by reference resolution. The source raises `Error` values
whose messages identify the failure; this embedding keeps the discriminating
payload of each message. -/
inductive ResolutionError where
  | invalidUrl (ref : String)
  | unsafeProtocol (protocol ref : String)
  | privateAddress (ref : String)
  | domainNotAllowed (hostname : String) (allowed : List String)
  | resolveFailed (message : String)
deriving DecidableEq

/-- Private/local hostname test of validateExternalUrl (ref-resolver.ts
lines 51-67), transcribed condition for condition: exact matches for
localhost, 127.0.0.1, ::1 and 0.0.0.0, prefix tests for the private ranges
(including the `172.2` prefix), and a substring test for `.local`. -/
def isPrivateHostname (hostname : String) : Bool :=
  hostname == "localhost" ||
  hostname == "127.0.0.1" ||
  hostname == "::1" ||
  strStartsWith hostname "192.168." ||
  strStartsWith hostname "10." ||
  strStartsWith hostname "172.16." ||
  strStartsWith hostname "172.17." ||
  strStartsWith hostname "172.18." ||
  strStartsWith hostname "172.19." ||
  strStartsWith hostname "172.2" ||
  strStartsWith hostname "172.30." ||
  strStartsWith hostname "172.31." ||
  strStartsWith hostname "169.254." ||
  hostname == "0.0.0.0" ||
  strIncludes hostname ".local"

/-- validateExternalUrl (ref-resolver.ts lines 36-84): parse the reference
URL (a parse failure is reported as an invalid URL), reject non-http(s)
protocols, then private/local hostnames (on the lowercased hostname), then
hostnames outside a non-empty domain allow-list. Returns `none` when the
reference passes the gate. -/
def validateExternalUrl (parse : String → Option ParsedUrl) (refUrl : String)
    (options : RefResolutionOptions) : Option ResolutionError :=
  match parse refUrl with
  | none => some (.invalidUrl refUrl)
  | some parsedUrl =>
    if !(parsedUrl.protocol == "http:" || parsedUrl.protocol == "https:") then
      some (.unsafeProtocol parsedUrl.protocol refUrl)
    else
      let hostname := jsToLowerStr parsedUrl.hostname
      if isPrivateHostname hostname then
        some (.privateAddress refUrl)
      else
        let allowedDomains := options.allowedDomains.getD []
        if allowedDomains.isEmpty then none
        else if allowedDomains.any (fun domain =>
            hostname == domain || strEndsWith hostname ("." ++ domain)) then none
        else some (.domainNotAllowed hostname allowedDomains)

/-- The validation loop of resolveReferences (ref-resolver.ts lines 141-146):
each external reference is checked in discovery order and the first failure
aborts resolution. -/
def firstGateError (parse : String → Option ParsedUrl)
    (options : RefResolutionOptions) : List String → Option ResolutionError
  | [] => none
  | ref :: rest =>
    match validateExternalUrl parse ref options with
    | some e => some e
    | none => firstGateError parse options rest

/-- ResolvedDocument (ref-resolver.ts lines 6-10). -/
structure ResolvedDocument where
  original : Json
  resolved : Json
  referencePaths : List String

/-- resolveReferences (ref-resolver.ts lines 124-199). The two RefParser
entry points — `RefParser.dereference` with external fetching enabled and
`RefParser.bundle` with all remote resolvers disabled — are external library
calls and enter the embedding as the oracles `derefAll` and `bundleInternal`
(the timeout/redirect options passed to them configure only those oracles).
Reference paths are extracted first; when `resolveExternal` is set, every
external reference must pass `validateExternalUrl` before any oracle runs. -/
def resolveReferences (parse : String → Option ParsedUrl)
    (derefAll bundleInternal : Json → Except String Json)
    (document : Json) (options : RefResolutionOptions) :
    Except ResolutionError ResolvedDocument :=
  let referencePaths := extractReferencePaths document
  let gate :=
    if options.resolveExternal = some true then
      firstGateError parse options (classifyReferences referencePaths).external
    else none
  match gate with
  | some e => .error e
  | none =>
    match (if options.resolveExternal = some true then derefAll document
           else bundleInternal document) with
    | .ok resolved => .ok ⟨document, resolved, referencePaths⟩
    | .error message => .error (.resolveFailed message)

/-- resolveAllReferences (ref-resolver.ts lines 216-223). -/
def resolveAllReferences (parse : String → Option ParsedUrl)
    (derefAll bundleInternal : Json → Except String Json) (document : Json) :
    Except ResolutionError ResolvedDocument :=
  resolveReferences parse derefAll bundleInternal document
    { resolveExternal := some true
      dereferenceInternal := some true
      continueOnError := some false }

theorem strStartsWith_weaken (h p q : String)
    (hpq : strStartsWith p q = true) (hhp : strStartsWith h p = true) :
    strStartsWith h q = true := by
  unfold strStartsWith at *
  rw [List.isPrefixOf_iff_prefix] at *
  exact hpq.trans hhp

theorem strIncludes_of_strEndsWith {h s : String}
    (he : strEndsWith h s = true) : strIncludes h s = true := by
  unfold strEndsWith at he
  unfold strIncludes
  rw [List.isSuffixOf_iff_suffix] at he
  simpa using he.isInfix

/-- Hostname set named by the specification for the private-address gate:
loopback, RFC1918 private ranges, the link-local range, the `.local` suffix
and 0.0.0.0. -/
def ClaimedPrivateHostname (h : String) : Prop :=
  h = "localhost" ∨ h = "127.0.0.1" ∨ h = "::1" ∨
  strStartsWith h "10." = true ∨
  strStartsWith h "192.168." = true ∨
  (∃ n : Nat, 16 ≤ n ∧ n ≤ 31 ∧ strStartsWith h ("172." ++ toString n ++ ".") = true) ∨
  strStartsWith h "169.254." = true ∨
  strEndsWith h ".local" = true ∨
  h = "0.0.0.0"

theorem isPrivateHostname_of_claimed {h : String}
    (hc : ClaimedPrivateHostname h) : isPrivateHostname h = true := by
  unfold ClaimedPrivateHostname at hc
  rcases hc with rfl | rfl | rfl | h10 | h192 | ⟨n, h16, h31, hpre⟩ | h169 | hloc | rfl
  · decide
  · decide
  · decide
  · simp [isPrivateHostname, h10]
  · simp [isPrivateHostname, h192]
  · interval_cases n
    · rw [show ("172." ++ toString (16:Nat) ++ "." : String) = "172.16." by decide] at hpre
      simp [isPrivateHostname, hpre]
    · rw [show ("172." ++ toString (17:Nat) ++ "." : String) = "172.17." by decide] at hpre
      simp [isPrivateHostname, hpre]
    · rw [show ("172." ++ toString (18:Nat) ++ "." : String) = "172.18." by decide] at hpre
      simp [isPrivateHostname, hpre]
    · rw [show ("172." ++ toString (19:Nat) ++ "." : String) = "172.19." by decide] at hpre
      simp [isPrivateHostname, hpre]
    · rw [show ("172." ++ toString (20:Nat) ++ "." : String) = "172.20." by decide] at hpre
      have hw : strStartsWith h "172.2" = true :=
        strStartsWith_weaken h "172.20." "172.2" (by decide) hpre
      simp [isPrivateHostname, hw]
    · rw [show ("172." ++ toString (21:Nat) ++ "." : String) = "172.21." by decide] at hpre
      have hw : strStartsWith h "172.2" = true :=
        strStartsWith_weaken h "172.21." "172.2" (by decide) hpre
      simp [isPrivateHostname, hw]
    · rw [show ("172." ++ toString (22:Nat) ++ "." : String) = "172.22." by decide] at hpre
      have hw : strStartsWith h "172.2" = true :=
        strStartsWith_weaken h "172.22." "172.2" (by decide) hpre
      simp [isPrivateHostname, hw]
    · rw [show ("172." ++ toString (23:Nat) ++ "." : String) = "172.23." by decide] at hpre
      have hw : strStartsWith h "172.2" = true :=
        strStartsWith_weaken h "172.23." "172.2" (by decide) hpre
      simp [isPrivateHostname, hw]
    · rw [show ("172." ++ toString (24:Nat) ++ "." : String) = "172.24." by decide] at hpre
      have hw : strStartsWith h "172.2" = true :=
        strStartsWith_weaken h "172.24." "172.2" (by decide) hpre
      simp [isPrivateHostname, hw]
    · rw [show ("172." ++ toString (25:Nat) ++ "." : String) = "172.25." by decide] at hpre
      have hw : strStartsWith h "172.2" = true :=
        strStartsWith_weaken h "172.25." "172.2" (by decide) hpre
      simp [isPrivateHostname, hw]
    · rw [show ("172." ++ toString (26:Nat) ++ "." : String) = "172.26." by decide] at hpre
      have hw : strStartsWith h "172.2" = true :=
        strStartsWith_weaken h "172.26." "172.2" (by decide) hpre
      simp [isPrivateHostname, hw]
    · rw [show ("172." ++ toString (27:Nat) ++ "." : String) = "172.27." by decide] at hpre
      have hw : strStartsWith h "172.2" = true :=
        strStartsWith_weaken h "172.27." "172.2" (by decide) hpre
      simp [isPrivateHostname, hw]
    · rw [show ("172." ++ toString (28:Nat) ++ "." : String) = "172.28." by decide] at hpre
      have hw : strStartsWith h "172.2" = true :=
        strStartsWith_weaken h "172.28." "172.2" (by decide) hpre
      simp [isPrivateHostname, hw]
    · rw [show ("172." ++ toString (29:Nat) ++ "." : String) = "172.29." by decide] at hpre
      have hw : strStartsWith h "172.2" = true :=
        strStartsWith_weaken h "172.29." "172.2" (by decide) hpre
      simp [isPrivateHostname, hw]
    · rw [show ("172." ++ toString (30:Nat) ++ "." : String) = "172.30." by decide] at hpre
      simp [isPrivateHostname, hpre]
    · rw [show ("172." ++ toString (31:Nat) ++ "." : String) = "172.31." by decide] at hpre
      simp [isPrivateHostname, hpre]
  · simp [isPrivateHostname, h169]
  · simp [isPrivateHostname, strIncludes_of_strEndsWith hloc]
  · decide

theorem firstGateError_isSome_of_mem
    (parse : String → Option ParsedUrl) (options : RefResolutionOptions) :
    ∀ (refs : List String) (refUrl : String) (e : ResolutionError),
      refUrl ∈ refs → validateExternalUrl parse refUrl options = some e →
      ∃ e', firstGateError parse options refs = some e'
  | [], refUrl, e, hmem, _ => by simp at hmem
  | r :: rest, refUrl, e, hmem, hval => by
    unfold firstGateError
    cases hr : validateExternalUrl parse r options with
    | some e0 => exact ⟨e0, rfl⟩
    | none =>
      simp only [List.mem_cons] at hmem
      cases hmem with
      | inl h => subst h; rw [hr] at hval; exact absurd hval (by simp)
      | inr h => exact firstGateError_isSome_of_mem parse options rest refUrl e h hval

/-- C1: in full external-resolution mode every external reference passes the
security gate before any fetch. A reference parsing to a non-http(s) protocol
is rejected as an unsafe protocol; an http(s) reference whose (lowercased)
hostname is loopback, private or link-local in the specification's sense is
rejected as a private address; and whenever any discovered external reference
fails the gate, `resolveReferences` fails with the first gate error while the
dereference oracles are never consulted (the outcome is the same for every
choice of oracle). -/
theorem c1_external_gate
    (parse : String → Option ParsedUrl)
    (options : RefResolutionOptions)
    (hext : options.resolveExternal = some true) :
    (∀ refUrl p, parse refUrl = some p →
      (p.protocol == "http:" || p.protocol == "https:") = false →
      validateExternalUrl parse refUrl options = some (.unsafeProtocol p.protocol refUrl)) ∧
    (∀ refUrl p, parse refUrl = some p →
      (p.protocol = "http:" ∨ p.protocol = "https:") →
      ClaimedPrivateHostname (jsToLowerStr p.hostname) →
      validateExternalUrl parse refUrl options = some (.privateAddress refUrl)) ∧
    (∀ document refUrl e,
      refUrl ∈ (classifyReferences (extractReferencePaths document)).external →
      validateExternalUrl parse refUrl options = some e →
      ∃ e', firstGateError parse options
          (classifyReferences (extractReferencePaths document)).external = some e' ∧
        ∀ derefAll derefAll' bundleInternal bundleInternal' : Json → Except String Json,
          resolveReferences parse derefAll bundleInternal document options = .error e' ∧
          resolveReferences parse derefAll bundleInternal document options =
            resolveReferences parse derefAll' bundleInternal' document options) := by
  refine ⟨?_, ?_, ?_⟩
  · intro refUrl p hp hproto
    unfold validateExternalUrl
    rw [hp]
    simp [hproto]
  · intro refUrl p hp hproto hpriv
    unfold validateExternalUrl
    rw [hp]
    have hcond : (p.protocol == "http:" || p.protocol == "https:") = true := by
      cases hproto with
      | inl h => simp [h]
      | inr h => simp [h]
    simp only [hcond, Bool.not_true, Bool.false_eq_true, if_false]
    simp [isPrivateHostname_of_claimed hpriv]
  · intro document refUrl e hmem hval
    obtain ⟨e', he'⟩ :=
      firstGateError_isSome_of_mem parse options _ refUrl e hmem hval
    refine ⟨e', he', ?_⟩
    intro derefAll derefAll' bundleInternal bundleInternal'
    constructor
    · unfold resolveReferences
      simp only [hext, if_true, he']
    · unfold resolveReferences
      simp only [hext, if_true, he']

/-- Witness for C1: the concrete references of the specification's test
properties, checked through `c1_external_gate` with a parser oracle that
parses them the way the WHATWG URL parser does. `file:///etc/passwd` is
rejected as an unsafe protocol; `http://localhost:3000/schema.json` is
rejected as a private address; and a document containing the latter reference
makes `resolveAllReferences`-style resolution fail with that error for any
pair of fetch oracles. -/
theorem c1_external_gate_witness :
    (validateExternalUrl
      (fun r => if r = "file:///etc/passwd" then some ⟨"file:", ""⟩
                else if r = "http://localhost:3000/schema.json" then some ⟨"http:", "localhost"⟩
                else none)
      "file:///etc/passwd"
      { resolveExternal := some true } =
        some (.unsafeProtocol "file:" "file:///etc/passwd")) ∧
    (validateExternalUrl
      (fun r => if r = "file:///etc/passwd" then some ⟨"file:", ""⟩
                else if r = "http://localhost:3000/schema.json" then some ⟨"http:", "localhost"⟩
                else none)
      "http://localhost:3000/schema.json"
      { resolveExternal := some true } =
        some (.privateAddress "http://localhost:3000/schema.json")) ∧
    (resolveReferences
      (fun r => if r = "file:///etc/passwd" then some ⟨"file:", ""⟩
                else if r = "http://localhost:3000/schema.json" then some ⟨"http:", "localhost"⟩
                else none)
      (fun d => .ok d) (fun d => .ok d)
      (Json.obj [("$ref", Json.str "http://localhost:3000/schema.json")])
      { resolveExternal := some true } =
        .error (.privateAddress "http://localhost:3000/schema.json")) := by
  obtain ⟨ha, hb, hc⟩ := c1_external_gate
    (fun r => if r = "file:///etc/passwd" then some ⟨"file:", ""⟩
              else if r = "http://localhost:3000/schema.json" then some ⟨"http:", "localhost"⟩
              else none)
    { resolveExternal := some true } rfl
  refine ⟨ha "file:///etc/passwd" ⟨"file:", ""⟩ (by decide) (by decide), ?_, ?_⟩
  · exact hb "http://localhost:3000/schema.json" ⟨"http:", "localhost"⟩ (by decide)
      (Or.inl rfl) (Or.inl (by decide))
  · have hmem : "http://localhost:3000/schema.json" ∈
        (classifyReferences (extractReferencePaths
          (Json.obj [("$ref", Json.str "http://localhost:3000/schema.json")]))).external := by
      decide
    have hval := hb "http://localhost:3000/schema.json" ⟨"http:", "localhost"⟩ (by decide)
      (Or.inl rfl) (Or.inl (by decide))
    obtain ⟨e', he', hres⟩ := hc _ _ _ hmem hval
    have := (hres (fun d => .ok d) (fun d => .ok d) (fun d => .ok d) (fun d => .ok d)).1
    have hfirst : e' = .privateAddress "http://localhost:3000/schema.json" := by
      have : firstGateError
          (fun r => if r = "file:///etc/passwd" then some ⟨"file:", ""⟩
                    else if r = "http://localhost:3000/schema.json" then some ⟨"http:", "localhost"⟩
                    else none)
          { resolveExternal := some true }
          (classifyReferences (extractReferencePaths
            (Json.obj [("$ref", Json.str "http://localhost:3000/schema.json")]))).external =
          some (.privateAddress "http://localhost:3000/schema.json") := by decide
      rw [this] at he'
      exact (Option.some.injEq _ _ ▸ he').symm
    rw [hfirst] at this
    exact this

/-- C10: the private-address gate matches by raw string prefix and substring,
so every hostname beginning with "172.2" is treated as private — including
public addresses such as 172.2.0.1 and 172.200.1.1 — and every hostname
merely containing ".local" anywhere is rejected as well; consequently
external resolution of such non-private public hosts fails with the
private-address error. -/
theorem c10_private_gate_overmatches :
    (∀ h : String, strStartsWith h "172.2" = true → isPrivateHostname h = true) ∧
    (∀ h : String, strIncludes h ".local" = true → isPrivateHostname h = true) ∧
    isPrivateHostname "172.2.0.1" = true ∧
    isPrivateHostname "172.200.1.1" = true ∧
    isPrivateHostname "foo.localdomain.example.com" = true ∧
    (validateExternalUrl (fun _ => some ⟨"http:", "172.200.1.1"⟩)
      "http://172.200.1.1/s.json" { resolveExternal := some true } =
        some (.privateAddress "http://172.200.1.1/s.json")) ∧
    (resolveReferences (fun _ => some ⟨"http:", "172.200.1.1"⟩)
      (fun d => .ok d) (fun d => .ok d)
      (Json.obj [("$ref", Json.str "http://172.200.1.1/s.json")])
      { resolveExternal := some true } =
        .error (.privateAddress "http://172.200.1.1/s.json")) := by
  refine ⟨?_, ?_, by decide, by decide, by decide, by decide, by rfl⟩
  · intro h hpre
    simp [isPrivateHostname, hpre]
  · intro h hinc
    simp [isPrivateHostname, hinc]

/-- Witness for C10: the two universally quantified clauses of
`c10_private_gate_overmatches` applied at the public hostnames
"172.200.1.1" and "foo.localdomain.example.com". -/
theorem c10_private_gate_overmatches_witness :
    isPrivateHostname "172.200.1.1" = true ∧
    isPrivateHostname "foo.localdomain.example.com" = true :=
  ⟨c10_private_gate_overmatches.1 "172.200.1.1" (by decide),
   c10_private_gate_overmatches.2.1 "foo.localdomain.example.com" (by decide)⟩

/-! ## Validator (src/parser/validator.ts) -/

/-- FileContent (reader.ts lines 269-273). -/
inductive DocFormat where
  | json
  | yaml
deriving DecidableEq

/-- FileContent: path, parsed content, detected format. -/
structure FileContent where
  filePath : String
  content : Json
  format : DocFormat

/-- ValidationError (validator.ts lines 15-19). -/
structure ValidationError where
  path : String
  message : String
  value : Option Json

/-- ValidationResult (validator.ts lines 9-13). -/
structure ValidationResult where
  isValid : Bool
  document : Option Json
  errors : List ValidationError

/-- JavaScript test `typeof v === "object" && v !== null`: true for objects
and arrays (`typeof null` is "object" but the null check excludes it). -/
def jsIsObjectLike : Json → Bool
  | .obj _ => true
  | .arr _ => true
  | _ => false

/-- JavaScript test `!v || typeof v !== "object"` on an optional property:
the property passes when it is present, truthy and object-typed. -/
def jsPassesObjCheck : Option Json → Bool
  | some (.obj _) => true
  | some (.arr _) => true
  | _ => false

/-- JavaScript test `typeof v === "string"` on an optional property. -/
def jsIsStringProp : Option Json → Bool
  | some (.str _) => true
  | _ => false

/-- validateOpenApiVersion (validator.ts lines 40-71): documents must be
objects, the `openapi` field a string, and the version must start with "3.".
The generator fails at the first `Effect.fail`, so later checks never run. -/
def validateOpenApiVersion (document : Json) : Option ValidationError :=
  if !jsIsObjectLike document then
    some ⟨"root", "Document must be an object", some document⟩
  else
    match document.getProp "openapi" with
    | some (.str version) =>
      if strStartsWith version "3." then none
      else some ⟨"openapi",
        "Unsupported OpenAPI version: " ++ version ++ ". Only OpenAPI 3.x is supported.",
        some (.str version)⟩
    | other => some ⟨"openapi", "Missing or invalid OpenAPI version field", other⟩

/-- validateBasicStructure (validator.ts lines 76-125): document object,
`info` object with string `title` and `version`, `paths` object. Each check
is an `Effect.fail` in an `Effect.gen`, so the first failing check aborts the
generator and only that one error is produced. -/
def validateBasicStructure (document : Json) : Option ValidationError :=
  if !jsIsObjectLike document then
    some ⟨"root", "OpenAPI document must be an object", some document⟩
  else if !jsPassesObjCheck (document.getProp "info") then
    some ⟨"info", "Missing or invalid 'info' object", document.getProp "info"⟩
  else
    let info := (document.getProp "info").getD .null
    if !jsIsStringProp (info.getProp "title") then
      some ⟨"info.title", "Missing or invalid 'title' in info object", info.getProp "title"⟩
    else if !jsIsStringProp (info.getProp "version") then
      some ⟨"info.version", "Missing or invalid 'version' in info object",
        info.getProp "version"⟩
    else if !jsPassesObjCheck (document.getProp "paths") then
      some ⟨"paths", "Missing or invalid 'paths' object", document.getProp "paths"⟩
    else none

/-- validateOpenApiDocument (validator.ts lines 130-178). The structural and
version validators each contribute at most one error; if either failed the
function returns early, otherwise the full grammar decode runs. The Effect
Schema decoder for `OpenApiDocumentSchema` is an external library call and
enters as the oracle `schemaDecode` (`.error` carries the formatted message
that `formatParseErrors` turns into a single "schema"-pathed error). -/
def validateOpenApiDocument (schemaDecode : Json → Except String Json)
    (fileContent : FileContent) : ValidationResult :=
  let document := fileContent.content
  let errors : List ValidationError :=
    (match validateBasicStructure document with
     | some e => [e]
     | none => []) ++
    (match validateOpenApiVersion document with
     | some e => [e]
     | none => [])
  if errors.length > 0 then
    { isValid := false, document := none, errors := errors }
  else
    match schemaDecode document with
    | .ok decoded => { isValid := true, document := some decoded, errors := [] }
    | .error message =>
      { isValid := false, document := none
        errors := [⟨"schema",
          (if message = "" then "Schema validation failed" else message), none⟩] }

/-- Counterexample to C3: a document that is missing both a string
`info.title` and a `paths` object yields exactly one validation error, for
`info.title` only — not one error per missing basic field. -/
theorem c3_counterexample :
    (jsIsStringProp ((((Json.obj [("openapi", Json.str "3.0.0"),
        ("info", Json.obj [("version", Json.str "1.0.0")])]).getProp "info").getD
          .null).getProp "title") = false) ∧
    (jsPassesObjCheck ((Json.obj [("openapi", Json.str "3.0.0"),
        ("info", Json.obj [("version", Json.str "1.0.0")])]).getProp "paths") = false) ∧
    ((validateOpenApiDocument (fun _ => .error "unused")
        ⟨"api.json", Json.obj [("openapi", Json.str "3.0.0"),
          ("info", Json.obj [("version", Json.str "1.0.0")])], .json⟩).isValid = false) ∧
    ((validateOpenApiDocument (fun _ => .error "unused")
        ⟨"api.json", Json.obj [("openapi", Json.str "3.0.0"),
          ("info", Json.obj [("version", Json.str "1.0.0")])], .json⟩).errors.map
            (fun e => e.path) = ["info.title"]) := by
  refine ⟨rfl, rfl, rfl, rfl⟩

/-- C3 as amended: basic-structure validation short-circuits at its first
failing check (in the order document, info, info.title, info.version, paths),
so a document with several missing or mistyped basic fields yields only the
error for the first one, alongside at most one version error — never one
error per missing field. -/
theorem c3_basic_errors_short_circuit
    (schemaDecode : Json → Except String Json) (fileContent : FileContent)
    (e : ValidationError)
    (hb : validateBasicStructure fileContent.content = some e) :
    (validateOpenApiDocument schemaDecode fileContent).isValid = false ∧
    (validateOpenApiDocument schemaDecode fileContent).errors.head? = some e ∧
    (validateOpenApiDocument schemaDecode fileContent).errors.length ≤ 2 := by
  cases hv : validateOpenApiVersion fileContent.content with
  | none => simp [validateOpenApiDocument, hb, hv]
  | some e2 => simp [validateOpenApiDocument, hb, hv]

/-- Witness for the amended C3: the counterexample document, whose only
reported error is the `info.title` one. -/
theorem c3_basic_errors_short_circuit_witness :
    (validateOpenApiDocument (fun _ => .error "unused")
      ⟨"api.json", Json.obj [("openapi", Json.str "3.0.0"),
        ("info", Json.obj [("version", Json.str "1.0.0")])], .json⟩).isValid = false ∧
    (validateOpenApiDocument (fun _ => .error "unused")
      ⟨"api.json", Json.obj [("openapi", Json.str "3.0.0"),
        ("info", Json.obj [("version", Json.str "1.0.0")])], .json⟩).errors.head? =
      some ⟨"info.title", "Missing or invalid 'title' in info object", none⟩ ∧
    (validateOpenApiDocument (fun _ => .error "unused")
      ⟨"api.json", Json.obj [("openapi", Json.str "3.0.0"),
        ("info", Json.obj [("version", Json.str "1.0.0")])], .json⟩).errors.length ≤ 2 :=
  c3_basic_errors_short_circuit (fun _ => .error "unused")
    ⟨"api.json", Json.obj [("openapi", Json.str "3.0.0"),
      ("info", Json.obj [("version", Json.str "1.0.0")])], .json⟩
    ⟨"info.title", "Missing or invalid 'title' in info object", none⟩ rfl

/-! ## Extractor data model (src/types/openapi.ts as used by
src/parser/extractor.ts) -/

/-- A value that is either an OpenAPI reference object (an object with a
`$ref` key — the `"$ref" in x` test of the source) or an inline value. -/
inductive RefOr (α : Type) where
  | ref (r : String) : RefOr α
  | val (a : α) : RefOr α

/-- OpenApiSchema: the schema-object shape read by the Extractor. The
validation-metadata fields (`minimum` … `pattern`, `default`) are part of the
source document model even though `extractSchema` does not read them. Bounds
are modelled as integers. -/
inductive OpenApiSchema where
  | mk
    (type : Option String)
    (format : Option String)
    (description : Option String)
    («example» : Option Json)
    (default : Option Json)
    (enum : Option (List Json))
    (required : Option (List String))
    (nullable : Option Bool)
    (deprecated : Option Bool)
    (minimum : Option Int)
    (maximum : Option Int)
    (minLength : Option Nat)
    (maxLength : Option Nat)
    (pattern : Option String)
    (properties : Option (List (String × RefOr OpenApiSchema)))
    (items : Option (RefOr OpenApiSchema))
    (additionalProperties : Option (Sum Bool (RefOr OpenApiSchema)))
    : OpenApiSchema

/-- Parameter locations (`in`). -/
inductive ParamLocation where
  | query
  | header
  | path
  | cookie
deriving DecidableEq

/-- OpenApiParameter. -/
structure OpenApiParameter where
  name : String
  «in» : ParamLocation
  description : Option String := none
  required : Option Bool := none
  deprecated : Option Bool := none
  schema : Option (RefOr OpenApiSchema) := none
  «example» : Option Json := none

/-- A media-type entry of a `content` map. -/
structure OpenApiMediaType where
  schema : Option (RefOr OpenApiSchema) := none
  «example» : Option Json := none

/-- OpenApiRequestBody. -/
structure OpenApiRequestBody where
  description : Option String := none
  required : Option Bool := none
  content : List (String × OpenApiMediaType)

/-- A response header object. -/
structure OpenApiHeader where
  description : Option String := none
  schema : Option (RefOr OpenApiSchema) := none

/-- OpenApiResponse. -/
structure OpenApiResponse where
  description : String
  content : Option (List (String × OpenApiMediaType)) := none
  headers : Option (List (String × RefOr OpenApiHeader)) := none

/-- A security requirement: scheme name to scope list. -/
def SecurityRequirement : Type := List (String × List String)

/-- OpenApiOperation. -/
structure OpenApiOperation where
  operationId : Option String := none
  summary : Option String := none
  description : Option String := none
  tags : Option (List String) := none
  parameters : Option (List (RefOr OpenApiParameter)) := none
  requestBody : Option (RefOr OpenApiRequestBody) := none
  responses : List (String × RefOr OpenApiResponse)
  deprecated : Option Bool := none
  security : Option (List SecurityRequirement) := none

/-- OpenApiPath: one entry of the `paths` object, with one optional operation
per HTTP method plus shared parameters. -/
structure OpenApiPath where
  summary : Option String := none
  description : Option String := none
  get : Option OpenApiOperation := none
  put : Option OpenApiOperation := none
  post : Option OpenApiOperation := none
  delete : Option OpenApiOperation := none
  options : Option OpenApiOperation := none
  head : Option OpenApiOperation := none
  patch : Option OpenApiOperation := none
  trace : Option OpenApiOperation := none
  parameters : Option (List (RefOr OpenApiParameter)) := none

/-- OpenApiComponents. -/
structure OpenApiComponents where
  schemas : Option (List (String × RefOr OpenApiSchema)) := none
  responses : Option (List (String × RefOr OpenApiResponse)) := none
  parameters : Option (List (String × RefOr OpenApiParameter)) := none
  requestBodies : Option (List (String × RefOr OpenApiRequestBody)) := none

/-- The `info` object of an OpenAPI document. -/
structure OpenApiInfo where
  title : String
  version : String
  description : Option String := none

/-- A `servers` entry. -/
structure OpenApiServer where
  url : String
  description : Option String := none

/-- A `tags` entry. -/
structure OpenApiTag where
  name : String
  description : Option String := none

/-- OpenApiDocument (typed view consumed by the Extractor). -/
structure OpenApiDocument where
  openapi : String
  info : OpenApiInfo
  servers : Option (List OpenApiServer) := none
  paths : List (String × OpenApiPath)
  components : Option OpenApiComponents := none
  security : Option (List SecurityRequirement) := none
  tags : Option (List OpenApiTag) := none

/-! ## Extractor IR types (src/parser/extractor.ts lines 13-116) -/

/-- ExtractedSchema (extractor.ts lines 90-109). The recursive fields force
an inductive; projections follow. The `schema?: ExtractedSchema` fields of
the other IR records use this type. -/
inductive ExtractedSchema where
  | mk
    (ref : Option String)
    (type : Option String)
    (format : Option String)
    (description : Option String)
    («example» : Option Json)
    (default : Option Json)
    (enum : Option (List Json))
    (required : Option (List String))
    (nullable : Option Bool)
    (deprecated : Option Bool)
    (minimum : Option Int)
    (maximum : Option Int)
    (minLength : Option Nat)
    (maxLength : Option Nat)
    (pattern : Option String)
    (properties : Option (List (String × ExtractedSchema)))
    (items : Option ExtractedSchema)
    (additionalProperties : Option (Sum Bool ExtractedSchema))
    : ExtractedSchema

def ExtractedSchema.ref : ExtractedSchema → Option String
  | .mk r _ _ _ _ _ _ _ _ _ _ _ _ _ _ _ _ _ => r

def ExtractedSchema.type : ExtractedSchema → Option String
  | .mk _ t _ _ _ _ _ _ _ _ _ _ _ _ _ _ _ _ => t

def ExtractedSchema.format : ExtractedSchema → Option String
  | .mk _ _ f _ _ _ _ _ _ _ _ _ _ _ _ _ _ _ => f

def ExtractedSchema.description : ExtractedSchema → Option String
  | .mk _ _ _ d _ _ _ _ _ _ _ _ _ _ _ _ _ _ => d

def ExtractedSchema.example : ExtractedSchema → Option Json
  | .mk _ _ _ _ e _ _ _ _ _ _ _ _ _ _ _ _ _ => e

def ExtractedSchema.default : ExtractedSchema → Option Json
  | .mk _ _ _ _ _ d _ _ _ _ _ _ _ _ _ _ _ _ => d

def ExtractedSchema.enum : ExtractedSchema → Option (List Json)
  | .mk _ _ _ _ _ _ e _ _ _ _ _ _ _ _ _ _ _ => e

def ExtractedSchema.required : ExtractedSchema → Option (List String)
  | .mk _ _ _ _ _ _ _ r _ _ _ _ _ _ _ _ _ _ => r

def ExtractedSchema.nullable : ExtractedSchema → Option Bool
  | .mk _ _ _ _ _ _ _ _ n _ _ _ _ _ _ _ _ _ => n

def ExtractedSchema.deprecated : ExtractedSchema → Option Bool
  | .mk _ _ _ _ _ _ _ _ _ d _ _ _ _ _ _ _ _ => d

def ExtractedSchema.minimum : ExtractedSchema → Option Int
  | .mk _ _ _ _ _ _ _ _ _ _ m _ _ _ _ _ _ _ => m

def ExtractedSchema.maximum : ExtractedSchema → Option Int
  | .mk _ _ _ _ _ _ _ _ _ _ _ m _ _ _ _ _ _ => m

def ExtractedSchema.minLength : ExtractedSchema → Option Nat
  | .mk _ _ _ _ _ _ _ _ _ _ _ _ m _ _ _ _ _ => m

def ExtractedSchema.maxLength : ExtractedSchema → Option Nat
  | .mk _ _ _ _ _ _ _ _ _ _ _ _ _ m _ _ _ _ => m

def ExtractedSchema.pattern : ExtractedSchema → Option String
  | .mk _ _ _ _ _ _ _ _ _ _ _ _ _ _ p _ _ _ => p

def ExtractedSchema.properties : ExtractedSchema → Option (List (String × ExtractedSchema))
  | .mk _ _ _ _ _ _ _ _ _ _ _ _ _ _ _ p _ _ => p

def ExtractedSchema.items : ExtractedSchema → Option ExtractedSchema
  | .mk _ _ _ _ _ _ _ _ _ _ _ _ _ _ _ _ i _ => i

def ExtractedSchema.additionalProperties : ExtractedSchema → Option (Sum Bool ExtractedSchema)
  | .mk _ _ _ _ _ _ _ _ _ _ _ _ _ _ _ _ _ a => a

/-- ExtractedParameter (extractor.ts lines 54-62). -/
structure ExtractedParameter where
  name : String
  «in» : ParamLocation
  description : Option String := none
  required : Bool
  deprecated : Option Bool := none
  schema : Option ExtractedSchema := none
  «example» : Option Json := none

/-- One `{mediaType, schema?, example?}` content entry of a request body or
response (extractor.ts lines 67-71 and 78-82). -/
structure ExtractedContentItem where
  mediaType : String
  schema : Option ExtractedSchema := none
  «example» : Option Json := none

/-- ExtractedRequestBody (extractor.ts lines 64-72). -/
structure ExtractedRequestBody where
  description : Option String := none
  required : Bool
  content : List ExtractedContentItem

/-- A response header descriptor (extractor.ts lines 83-87). -/
structure ExtractedHeaderItem where
  name : String
  description : Option String := none
  schema : Option ExtractedSchema := none

/-- ExtractedResponse (extractor.ts lines 74-88). `statusCode` is the
JavaScript number `Number.parseInt(statusCode, 10)`; `none` models `NaN` for
non-numeric keys such as "default". The `schema` field is documented in the
source as "Primary schema from application/json content". -/
structure ExtractedResponse where
  statusCode : Option Int
  description : String
  schema : Option ExtractedSchema := none
  content : List ExtractedContentItem
  headers : List ExtractedHeaderItem

/-- ExtractedOperation (extractor.ts lines 40-52). -/
structure ExtractedOperation where
  method : String
  path : Option String := none
  operationId : Option String := none
  summary : Option String := none
  description : Option String := none
  tags : List String
  parameters : List ExtractedParameter
  requestBody : Option ExtractedRequestBody := none
  responses : List ExtractedResponse
  deprecated : Option Bool := none
  security : List SecurityRequirement

/-- ExtractedPath (extractor.ts lines 32-38). -/
structure ExtractedPath where
  path : String
  summary : Option String := none
  description : Option String := none
  operations : List ExtractedOperation
  parameters : List ExtractedParameter

/-- ExtractedComponents (extractor.ts lines 111-116); the records are
modelled as ordered association lists. -/
structure ExtractedComponents where
  schemas : List (String × ExtractedSchema)
  responses : List (String × ExtractedResponse)
  parameters : List (String × ExtractedParameter)
  requestBodies : List (String × ExtractedRequestBody)

/-- ExtractedApiData (extractor.ts lines 13-30). -/
structure ExtractedApiData where
  info : OpenApiInfo
  servers : List OpenApiServer
  paths : List ExtractedPath
  components : ExtractedComponents
  security : List SecurityRequirement
  tags : List OpenApiTag

/-! ## Extraction functions (src/parser/extractor.ts lines 118-462) -/

/-- JavaScript truthiness filter used by the `...(x && { f: x })` spreads on
string fields: the empty string is falsy and is omitted. -/
def optTruthyStr : Option String → Option String
  | some "" => none
  | x => x

/-- JavaScript truthiness filter for the `...(b && { f: b })` spreads on
boolean fields: only `true` survives. -/
def optTruthyBool : Option Bool → Option Bool
  | some true => some true
  | _ => none

/-- The `...(Object.keys(props).length > 0 && { properties: props })` spread
of extractSchema: an empty extracted-properties record is omitted. -/
def nonEmptyProps : List (String × ExtractedSchema) → Option (List (String × ExtractedSchema))
  | [] => none
  | props => some props

mutual

/-- The body of extractSchema (extractor.ts lines 121-170) on a present
schema. Carries over type/format/description (truthy), example (when
defined), enum/required (arrays are always truthy), nullable/deprecated
(truthy), non-empty extracted properties, non-reference items and
additional properties. The `$ref` and validation-metadata fields of the
result are never assigned. -/
def extractSchemaCore : OpenApiSchema → ExtractedSchema
  | .mk type format description ex _default _enum required nullable deprecated
      _minimum _maximum _minLength _maxLength _pattern properties items additionalProperties =>
    .mk
      none                              -- $ref: never produced
      (optTruthyStr type)
      (optTruthyStr format)
      (optTruthyStr description)
      ex                                -- example !== undefined
      none                              -- default: not carried over
      _enum                             -- enum (an array is always truthy)
      required                          -- required (an array is always truthy)
      (optTruthyBool nullable)
      (optTruthyBool deprecated)
      none none none none none          -- minimum/maximum/minLength/maxLength/pattern: not carried over
      (match properties with
       | some entries => nonEmptyProps (extractSchemaProps entries)
       | none => none)
      (match items with
       | some (.val sub) => some (extractSchemaCore sub)
       | _ => none)
      (match additionalProperties with
       | some (.inl b) => some (.inl b)
       | some (.inr (.val sub)) => some (.inr (extractSchemaCore sub))
       | _ => none)

/-- The `Object.entries(schema.properties).forEach` loop of extractSchema:
reference-valued properties become a `{type: "reference", description:
"Reference to …"}` placeholder, others are extracted recursively (which
always yields a value). -/
def extractSchemaProps : List (String × RefOr OpenApiSchema) → List (String × ExtractedSchema)
  | [] => []
  | (key, .ref r) :: rest =>
    (key, .mk none (some "reference") none (some ("Reference to " ++ r))
      none none none none none none none none none none none none none none) ::
    extractSchemaProps rest
  | (key, .val v) :: rest => (key, extractSchemaCore v) :: extractSchemaProps rest

end

/-- extractSchema (extractor.ts lines 121-170): `undefined` in, `undefined`
out; otherwise the extraction above. -/
def extractSchema : Option OpenApiSchema → Option ExtractedSchema
  | none => none
  | some schema => some (extractSchemaCore schema)

/-- extractParameter (extractor.ts lines 175-189). `required` is
`param.required || param.in === "path"`: path parameters are always
required. -/
def extractParameter (param : OpenApiParameter) : ExtractedParameter :=
  let schema := extractSchema
    (match param.schema with
     | some (.val s) => some s
     | _ => none)
  { name := param.name
    «in» := param.«in»
    required := (param.required == some true) || (param.«in» == .path)
    description := optTruthyStr param.description
    deprecated := optTruthyBool param.deprecated
    «example» := param.«example»
    schema := schema }

/-- extractRequestBody (extractor.ts lines 194-220). -/
def extractRequestBody (requestBody : OpenApiRequestBody) : ExtractedRequestBody :=
  { required := requestBody.required == some true
    content := requestBody.content.map (fun entry =>
      { mediaType := entry.1
        schema := extractSchema
          (match entry.2.schema with
           | some (.val s) => some s
           | _ => none)
        «example» := entry.2.«example» })
    description := optTruthyStr requestBody.description }

/-- Number.parseInt(s, 10): skip leading whitespace and an optional sign,
then read a decimal-digit prefix; no digits means NaN (`none`). -/
def parseIntJS (s : String) : Option Int :=
  let chars := s.data.dropWhile isJsWhitespace
  let core : List Char → Option Nat := fun l =>
    match l.takeWhile (fun c => 48 ≤ c.toNat && c.toNat ≤ 57) with
    | [] => none
    | ds => some (ds.foldl (fun a c => a * 10 + (c.toNat - 48)) 0)
  match chars with
  | '-' :: rest => (core rest).map (fun n => -(n : Int))
  | '+' :: rest => (core rest).map (fun n => (n : Int))
  | l => (core l).map (fun n => (n : Int))

/-- extractResponse (extractor.ts lines 225-276): parses the status-code
key, copies the description, maps every content entry and header. The
top-level `schema` field of the result is never assigned. -/
def extractResponse (statusCode : String) (response : OpenApiResponse) : ExtractedResponse :=
  { statusCode := parseIntJS statusCode
    description := response.description
    schema := none
    content := (response.content.getD []).map (fun entry =>
      { mediaType := entry.1
        schema := extractSchema
          (match entry.2.schema with
           | some (.val s) => some s
           | _ => none)
        «example» := entry.2.«example» })
    headers := (response.headers.getD []).map (fun entry =>
      match entry.2 with
      | .ref _ => { name := entry.1 }
      | .val header =>
        { name := entry.1
          description := optTruthyStr header.description
          schema := extractSchema
            (match header.schema with
             | some (.val s) => some s
             | _ => none) }) }

/-- extractOperation (extractor.ts lines 281-315): reference-valued
parameters, responses and request bodies are filtered out; the method is
uppercased. -/
def extractOperation (method : String) (operation : OpenApiOperation) : ExtractedOperation :=
  { method := jsToUpperStr method
    tags := operation.tags.getD []
    parameters := (operation.parameters.getD []).filterMap (fun p =>
      match p with
      | .ref _ => none
      | .val param => some (extractParameter param))
    responses := operation.responses.filterMap (fun entry =>
      match entry.2 with
      | .ref _ => none
      | .val response => some (extractResponse entry.1 response))
    security := operation.security.getD []
    operationId := optTruthyStr operation.operationId
    summary := optTruthyStr operation.summary
    description := optTruthyStr operation.description
    deprecated := optTruthyBool operation.deprecated
    requestBody :=
      match operation.requestBody with
      | some (.val rb) => some (extractRequestBody rb)
      | _ => none }

/-- The fixed canonical HTTP-method order of extractPath (extractor.ts
lines 322-331). -/
def httpMethodsOrder (pathObj : OpenApiPath) : List (String × Option OpenApiOperation) :=
  [("get", pathObj.get), ("put", pathObj.put), ("post", pathObj.post),
   ("delete", pathObj.delete), ("options", pathObj.options), ("head", pathObj.head),
   ("patch", pathObj.patch), ("trace", pathObj.trace)]

/-- extractPath (extractor.ts lines 320-354). -/
def extractPath (pathStr : String) (pathObj : OpenApiPath) : ExtractedPath :=
  { path := pathStr
    operations := (httpMethodsOrder pathObj).filterMap (fun entry =>
      entry.2.map (fun operation => extractOperation entry.1 operation))
    parameters := (pathObj.parameters.getD []).filterMap (fun p =>
      match p with
      | .ref _ => none
      | .val param => some (extractParameter param))
    summary := optTruthyStr pathObj.summary
    description := optTruthyStr pathObj.description }

/-- extractComponents (extractor.ts lines 359-414): each component map drops
reference-valued entries and extracts the rest (component responses reuse
the component name as the status-code key). -/
def extractComponents (components : Option OpenApiComponents) : ExtractedComponents :=
  match components with
  | none => ⟨[], [], [], []⟩
  | some comps =>
    { schemas := (comps.schemas.getD []).filterMap (fun entry =>
        match entry.2 with
        | .ref _ => none
        | .val schema => some (entry.1, extractSchemaCore schema))
      responses := (comps.responses.getD []).filterMap (fun entry =>
        match entry.2 with
        | .ref _ => none
        | .val response => some (entry.1, extractResponse entry.1 response))
      parameters := (comps.parameters.getD []).filterMap (fun entry =>
        match entry.2 with
        | .ref _ => none
        | .val param => some (entry.1, extractParameter param))
      requestBodies := (comps.requestBodies.getD []).filterMap (fun entry =>
        match entry.2 with
        | .ref _ => none
        | .val rb => some (entry.1, extractRequestBody rb)) }

/-- extractApiData (extractor.ts lines 419-462), the pure value it returns
(the surrounding Effect only wraps unexpected exceptions). -/
def extractApiData (document : OpenApiDocument) : ExtractedApiData :=
  { info :=
      { title := document.info.title
        version := document.info.version
        description := optTruthyStr document.info.description }
    servers := (document.servers.getD []).map (fun server =>
      { url := server.url, description := optTruthyStr server.description })
    paths := document.paths.map (fun entry => extractPath entry.1 entry.2)
    components := extractComponents document.components
    security := document.security.getD []
    tags := (document.tags.getD []).map (fun tag =>
      { name := tag.name, description := optTruthyStr tag.description }) }

/-! ## C5: path parameters are always required -/

theorem extractParameter_in (param : OpenApiParameter) :
    (extractParameter param).«in» = param.«in» := rfl

theorem extractParameter_required (param : OpenApiParameter) :
    (extractParameter param).required =
      ((param.required == some true) || (param.«in» == ParamLocation.path)) := rfl

/-- Every parameter in the extracted IR — operation-level, path-level or
component — is `extractParameter` of some source parameter. -/
def allExtractedParameters (data : ExtractedApiData) : List ExtractedParameter :=
  data.paths.flatMap (fun p => p.parameters ++ p.operations.flatMap (fun op => op.parameters)) ++
  data.components.parameters.map (fun entry => entry.2)

theorem mem_filterMap_extractParameter
    {p : ExtractedParameter} {l : List (RefOr OpenApiParameter)}
    (h : p ∈ l.filterMap (fun x =>
      match x with
      | .ref _ => none
      | .val param => some (extractParameter param))) :
    ∃ q, p = extractParameter q := by
  rw [List.mem_filterMap] at h
  obtain ⟨a, _, ha⟩ := h
  match a, ha with
  | .val q, ha =>
    simp only [Option.some.injEq] at ha
    exact ⟨q, ha.symm⟩

theorem mem_allExtractedParameters_extract
    (document : OpenApiDocument) (p : ExtractedParameter)
    (hmem : p ∈ allExtractedParameters (extractApiData document)) :
    ∃ q, p = extractParameter q := by
  unfold allExtractedParameters extractApiData at hmem
  simp only [List.mem_append] at hmem
  cases hmem with
  | inl hpaths =>
    simp only [List.mem_flatMap, List.mem_map] at hpaths
    obtain ⟨ep, ⟨entry, _, hep⟩, hin⟩ := hpaths
    subst hep
    simp only [extractPath, List.mem_append] at hin
    cases hin with
    | inl hshared => exact mem_filterMap_extractParameter hshared
    | inr hops =>
      simp only [List.mem_flatMap, List.mem_filterMap] at hops
      obtain ⟨op, ⟨mentry, _, hop⟩, hpin⟩ := hops
      match mentry, hop with
      | (m, some operation), hop =>
        simp only [Option.map, Option.some.injEq] at hop
        subst hop
        exact mem_filterMap_extractParameter hpin
  | inr hcomps =>
    simp only [List.mem_map] at hcomps
    obtain ⟨entry, hentry, hp⟩ := hcomps
    subst hp
    unfold extractComponents at hentry
    match document.components, hentry with
    | none, hentry => simp at hentry
    | some comps, hentry =>
      simp only [List.mem_filterMap] at hentry
      obtain ⟨centry, _, hc⟩ := hentry
      match centry, hc with
      | (n, .val q), hc =>
        simp only [Option.some.injEq] at hc
        exact ⟨q, congrArg Prod.snd hc.symm⟩

/-- C5: for every parameter extracted by the Extractor — at operation level,
path level or in the components map — a `path` location forces
`required = true` regardless of the declared value (in particular for an
explicit `required: false`), while parameters at other locations keep their
declared value, defaulting to `false` when it is absent. -/
theorem c5_path_parameters_required :
    (∀ param : OpenApiParameter, param.«in» = ParamLocation.path →
      (extractParameter param).required = true) ∧
    (∀ param : OpenApiParameter, param.«in» ≠ ParamLocation.path →
      (extractParameter param).required = param.required.getD false) ∧
    (∀ (document : OpenApiDocument) (p : ExtractedParameter),
      p ∈ allExtractedParameters (extractApiData document) →
      p.«in» = ParamLocation.path → p.required = true) := by
  refine ⟨?_, ?_, ?_⟩
  · intro param hpath
    rw [extractParameter_required, hpath]
    simp
  · intro param hnot
    rw [extractParameter_required]
    match h : param.required with
    | some true => simp
    | some false =>
      have : (param.«in» == ParamLocation.path) = false := by
        simpa using hnot
      simp [this]
    | none =>
      have : (param.«in» == ParamLocation.path) = false := by
        simpa using hnot
      simp [this]
  · intro document p hmem hpath
    obtain ⟨q, hq⟩ := mem_allExtractedParameters_extract document p hmem
    subst hq
    rw [extractParameter_in] at hpath
    rw [extractParameter_required, hpath]
    simp

/-- Witness for C5: a path parameter explicitly declared `required: false`
is forced required, both directly and through the full extraction of a
document carrying it at operation level; and a query parameter with
`required: false` keeps `false`. -/
theorem c5_path_parameters_required_witness :
    (extractParameter
      { name := "id", «in» := ParamLocation.path, required := some false }).required = true ∧
    (extractParameter
      { name := "q", «in» := ParamLocation.query, required := some false }).required = false ∧
    ∀ p ∈ allExtractedParameters (extractApiData
      { openapi := "3.0.0"
        info := { title := "T", version := "1" }
        paths := [("/users/{id}",
          { get := some
              { responses := []
                parameters := some [.val
                  { name := "id", «in» := ParamLocation.path, required := some false }] } })] }),
      p.«in» = ParamLocation.path → p.required = true := by
  refine ⟨?_, ?_, ?_⟩
  · exact c5_path_parameters_required.1
      { name := "id", «in» := ParamLocation.path, required := some false } rfl
  · have := c5_path_parameters_required.2.1
      { name := "q", «in» := ParamLocation.query, required := some false } (by decide)
    simpa using this
  · intro p hp
    exact c5_path_parameters_required.2.2 _ p hp

/-! ## C2: the primary response schema field -/

/-- C2 evaluated on the code: extractResponse never assigns the primary
`schema` field — for every response it is `none` — even when an
`application/json` content entry carries a schema, contradicting the field's
own documentation ("Primary schema from application/json content"). The
concrete clauses evaluate the failing input: a 200 response whose
`application/json` entry has a string schema still gets `schema = none`. -/
theorem c2_primary_schema_never_populated :
    (∀ (statusCode : String) (response : OpenApiResponse),
      (extractResponse statusCode response).schema = none) ∧
    ((extractResponse "200"
      { description := "ok"
        content := some [("application/json",
          { schema := some (.val (.mk (some "string") none none none none none none
              none none none none none none none none none none)) })] }).content.map
        (fun c => (c.mediaType, c.schema.isSome)) = [("application/json", true)]) ∧
    ((extractResponse "200"
      { description := "ok"
        content := some [("application/json",
          { schema := some (.val (.mk (some "string") none none none none none none
              none none none none none none none none none none)) })] }).statusCode
      = some 200) := by
  refine ⟨fun statusCode response => rfl, by decide, by decide⟩

/-! ## SchemaGenerator (src/generator/schema-generator.ts) -/

/-- One escaped character of JSON.stringify on a string. -/
def jsonEscapeChar (c : Char) : String :=
  if c = '"' then "\\\""
  else if c = '\\' then "\\\\"
  else if c.toNat = 10 then "\\n"
  else if c.toNat = 13 then "\\r"
  else if c.toNat = 9 then "\\t"
  else String.singleton c

/-- Separator join (`Array.prototype.join`). -/
def joinSep (sep : String) : List String → String
  | [] => ""
  | [x] => x
  | x :: rest => x ++ sep ++ joinSep sep rest

mutual

/-- JSON.stringify on the plain-data values of this model. -/
def jsonStringify : Json → String
  | .null => "null"
  | .bool true => "true"
  | .bool false => "false"
  | .num n => toString n
  | .str s => "\"" ++ (s.data.map jsonEscapeChar).foldl (· ++ ·) "" ++ "\""
  | .arr items => "[" ++ jsonStringifyItems items ++ "]"
  | .obj fields => "\x7b" ++ jsonStringifyFields fields ++ "\x7d"

def jsonStringifyItems : List Json → String
  | [] => ""
  | [x] => jsonStringify x
  | x :: rest => jsonStringify x ++ "," ++ jsonStringifyItems rest

def jsonStringifyFields : List (String × Json) → String
  | [] => ""
  | [(k, v)] => "\"" ++ k ++ "\":" ++ jsonStringify v
  | (k, v) :: rest => "\"" ++ k ++ "\":" ++ jsonStringify v ++ "," ++ jsonStringifyFields rest

end

/-- SchemaGenerator.generateAnnotations (schema-generator.ts lines 141-183):
description, example, default, numeric bounds, length bounds and pattern are
emitted as `.annotations({...})` entries when present on the IR schema node
(description and pattern under truthiness, the others under
`!== undefined`). -/
def generateAnnotations (schema : ExtractedSchema) : String :=
  let annotations : List String :=
    (match optTruthyStr schema.description with
     | some d => ["description: " ++ jsonStringify (.str d)]
     | none => []) ++
    (match schema.«example» with
     | some v => ["examples: [" ++ jsonStringify v ++ "]"]
     | none => []) ++
    (match schema.default with
     | some v => ["default: " ++ jsonStringify v]
     | none => []) ++
    (match schema.minimum with
     | some n => ["minimum: " ++ toString n]
     | none => []) ++
    (match schema.maximum with
     | some n => ["maximum: " ++ toString n]
     | none => []) ++
    (match schema.minLength with
     | some n => ["minLength: " ++ toString n]
     | none => []) ++
    (match schema.maxLength with
     | some n => ["maxLength: " ++ toString n]
     | none => []) ++
    (match optTruthyStr schema.pattern with
     | some p => ["pattern: " ++ jsonStringify (.str p)]
     | none => [])
  if annotations.isEmpty then ""
  else ".annotations(\x7b\n    " ++ joinSep ",\n    " annotations ++ "\n  \x7d)"

/-- JavaScript `String.prototype.split` with a one-character separator (no
run collapsing). -/
def splitOnChar (sep : Char) : List Char → List (List Char)
  | [] => [[]]
  | c :: cs =>
    if c = sep then [] :: splitOnChar sep cs
    else
      match splitOnChar sep cs with
      | w :: ws => (c :: w) :: ws
      | [] => [[c]]

/-- SchemaGenerator.getSchemaType (schema-generator.ts lines 95-138):
references map to the PascalCase last `/`-segment (an empty segment throws),
strings specialize on format, numbers and integers are distinct, arrays
recurse on items, objects become an inline-struct placeholder or a record,
anything else falls back to S.Unknown. `.error` models the `throw`. -/
def getSchemaTypeGen : ExtractedSchema → Except String String
  | .mk ref type format _ _ _ _ _ _ _ _ _ _ _ _ properties items _ =>
    match (match ref with
           | some "" => none
           | some r => some r
           | none => none) with
    | some r =>
      let refName : String := ⟨(splitOnChar '/' r.data).getLastD []⟩
      if refName = "" then .error ("Invalid $ref format: " ++ r)
      else .ok (toPascalCase refName)
    | none =>
      match type with
      | some "string" =>
        if format == some "date-time" then .ok "S.DateTimeString"
        else if format == some "date" then .ok "S.DateString"
        else if format == some "uuid" then .ok "S.UUID"
        else if format == some "email" then .ok "S.Email"
        else .ok "S.String"
      | some "number" => .ok "S.Number"
      | some "integer" => .ok "S.Int"
      | some "boolean" => .ok "S.Boolean"
      | some "array" =>
        match items with
        | some sub => (getSchemaTypeGen sub).map (fun t => "S.Array(" ++ t ++ ")")
        | none => .ok "S.Array(S.Unknown)"
      | some "object" =>
        match properties with
        | some _ => .ok "S.Struct(\x7b /* TODO: extract to separate schema */ \x7d)"
        | none => .ok "S.Record(\x7b key: S.String, value: S.Unknown \x7d)"
      | _ => .ok "S.Unknown"

/-- SchemaGenerator.generateObjectSchema (schema-generator.ts lines 39-64). -/
def generateObjectSchema (name : String) (schema : ExtractedSchema) :
    Except String String := do
  let properties ← (schema.properties.getD []).mapM (fun prop => do
    let isRequired := (schema.required.getD []).contains prop.1
    let propType ← getSchemaTypeGen prop.2
    let annotations := generateAnnotations prop.2
    if isRequired then
      pure ("  " ++ prop.1 ++ ": " ++ propType ++ annotations)
    else
      pure ("  " ++ prop.1 ++ ": S.optional(" ++ propType ++ ")" ++ annotations))
  let structContent := joinSep ",\n" properties
  let schemaAnnotations := generateAnnotations schema
  pure ("export const " ++ name ++ " = S.Struct(\x7b\n" ++ structContent ++
    "\n\x7d)" ++ schemaAnnotations ++ ";")

/-- SchemaGenerator.generateArraySchema (schema-generator.ts lines 66-74);
the missing-items branch is the `throw`. -/
def generateArraySchema (name : String) (schema : ExtractedSchema) :
    Except String String :=
  match schema.items with
  | none => .error ("Array schema " ++ name ++ " is missing items property")
  | some itemsSchema =>
    (getSchemaTypeGen itemsSchema).map (fun itemType =>
      "export const " ++ name ++ " = S.Array(" ++ itemType ++ ")" ++
      generateAnnotations schema ++ ";")

/-- SchemaGenerator.generateEnumSchema (schema-generator.ts lines 76-83);
`schema.enum?.map(JSON.stringify).join(", ")` interpolates as "undefined"
when the enum is absent. -/
def generateEnumSchema (name : String) (schema : ExtractedSchema) : String :=
  let enumValues :=
    match schema.enum with
    | some values => joinSep ", " (values.map jsonStringify)
    | none => "undefined"
  "export const " ++ name ++ " = S.Literal(" ++ enumValues ++ ")" ++
    generateAnnotations schema ++ ";"

/-- SchemaGenerator.generatePrimitiveSchema (schema-generator.ts
lines 85-93). -/
def generatePrimitiveSchema (name : String) (schema : ExtractedSchema) :
    Except String String :=
  (getSchemaTypeGen schema).map (fun baseType =>
    "export const " ++ name ++ " = " ++ baseType ++ generateAnnotations schema ++ ";")

/-- SchemaGenerator.generateSchema (schema-generator.ts lines 20-37). -/
def generateSchema (name : String) (schema : ExtractedSchema) : Except String String :=
  let pascalName := toPascalCase name
  if schema.type == some "object" && schema.properties.isSome then
    generateObjectSchema pascalName schema
  else if schema.type == some "array" && schema.items.isSome then
    generateArraySchema pascalName schema
  else if schema.enum.isSome then
    .ok (generateEnumSchema pascalName schema)
  else
    generatePrimitiveSchema pascalName schema

/-- SchemaGenerator.generateAllSchemas (schema-generator.ts lines 6-18):
one code block per component schema, joined by blank lines. -/
def generateAllSchemas (apiData : ExtractedApiData) : Except String String :=
  (apiData.components.schemas.mapM (fun entry => generateSchema entry.1 entry.2)).map
    (joinSep "\n\n")

/-! ## C4: validation metadata through the pipeline -/

set_option maxRecDepth 16384 in
/-- C4 evaluated on the code: extractSchema drops every validation-metadata
field (minimum, maximum, minLength, maxLength, pattern, default) of every
source schema, so the pipeline's generated shared-schema output carries none
of those annotations for a component schema that declares them — even though
`generateAnnotations` does forward each of those fields whenever the IR node
carries it. The concrete clauses run the pipeline on a "Username" string
component with all six fields declared. -/
theorem c4_validation_metadata_dropped :
    (∀ s : OpenApiSchema,
      (extractSchemaCore s).minimum = none ∧ (extractSchemaCore s).maximum = none ∧
      (extractSchemaCore s).minLength = none ∧ (extractSchemaCore s).maxLength = none ∧
      (extractSchemaCore s).pattern = none ∧ (extractSchemaCore s).default = none) ∧
    ((generateAllSchemas (extractApiData
      { openapi := "3.0.0"
        info := { title := "T", version := "1" }
        paths := []
        components := some { schemas := some [("Username",
          .val (.mk (some "string") none (some "Username") none (some (Json.str "anon"))
            none none none none (some 1) (some 10) (some 3) (some 50)
            (some "^[a-zA-Z]+$") none none none))] } })).toOption.map (fun out =>
      [strIncludes out "minLength", strIncludes out "maxLength", strIncludes out "minimum",
       strIncludes out "maximum", strIncludes out "pattern", strIncludes out "default",
       strIncludes out "export const Username = S.String"]) =
      some [false, false, false, false, false, false, true]) ∧
    (strIncludes (generateAnnotations
      (.mk none (some "string") none (some "Username") none (some (Json.str "anon"))
        none none none none (some 1) (some 10) (some 3) (some 50)
        (some "^[a-zA-Z]+$") none none none)) "minLength: 3" = true ∧
     strIncludes (generateAnnotations
      (.mk none (some "string") none (some "Username") none (some (Json.str "anon"))
        none none none none (some 1) (some 10) (some 3) (some 50)
        (some "^[a-zA-Z]+$") none none none)) "maxLength: 50" = true ∧
     strIncludes (generateAnnotations
      (.mk none (some "string") none (some "Username") none (some (Json.str "anon"))
        none none none none (some 1) (some 10) (some 3) (some 50)
        (some "^[a-zA-Z]+$") none none none)) "minimum: 1" = true ∧
     strIncludes (generateAnnotations
      (.mk none (some "string") none (some "Username") none (some (Json.str "anon"))
        none none none none (some 1) (some 10) (some 3) (some 50)
        (some "^[a-zA-Z]+$") none none none)) "maximum: 10" = true ∧
     strIncludes (generateAnnotations
      (.mk none (some "string") none (some "Username") none (some (Json.str "anon"))
        none none none none (some 1) (some 10) (some 3) (some 50)
        (some "^[a-zA-Z]+$") none none none)) "pattern: \"^[a-zA-Z]+$\"" = true ∧
     strIncludes (generateAnnotations
      (.mk none (some "string") none (some "Username") none (some (Json.str "anon"))
        none none none none (some 1) (some 10) (some 3) (some 50)
        (some "^[a-zA-Z]+$") none none none)) "default: \"anon\"" = true) := by
  refine ⟨?_, by decide, by decide, by decide, by decide, by decide, by decide, by decide⟩
  intro s
  match s with
  | .mk type format description ex dflt enm required nullable deprecated
      minimum maximum minLength maxLength pattern properties items additionalProperties =>
    unfold extractSchemaCore
    exact ⟨rfl, rfl, rfl, rfl, rfl, rfl⟩

/-! ## HttpApiGenerator.groupOperationsByTag (schema-generator.ts second
part, lines 310-327) -/

/-- The grouping key of one operation: `operation.tags[0] || "default"` —
the first tag, with both a missing first tag (no tags) and an empty-string
first tag falling back to "default". -/
def groupKeyOf (operation : ExtractedOperation) : String :=
  match operation.tags with
  | [] => "default"
  | t :: _ => if t = "" then "default" else t

/-- `groups.get(tag)?.push(...)` / `groups.set(tag, [])` on the insertion
ordered JS Map, modelled as an ordered association list: append to an
existing entry or append a new singleton entry at the end. -/
def addToGroup (groups : List (String × List ExtractedOperation)) (tag : String)
    (operation : ExtractedOperation) : List (String × List ExtractedOperation) :=
  match groups with
  | [] => [(tag, [operation])]
  | (k, ops) :: rest =>
    if k = tag then (k, ops ++ [operation]) :: rest
    else (k, ops) :: addToGroup rest tag operation

/-- The `{...operation, path: pathItem.path}` spread: the operation with its
path filled in. -/
def withPath (pathStr : String) (operation : ExtractedOperation) : ExtractedOperation :=
  { operation with path := some pathStr }

/-- HttpApiGenerator.groupOperationsByTag: iterate paths in IR order and
operations in their per-path order, adding each operation (with its path
attached) to the group of its first tag. -/
def groupOperationsByTag (apiData : ExtractedApiData) :
    List (String × List ExtractedOperation) :=
  apiData.paths.foldl (fun groups pathItem =>
    pathItem.operations.foldl (fun groups operation =>
      addToGroup groups (groupKeyOf operation) (withPath pathItem.path operation)) groups) []

/-- IR declaration order of operations as the grouping traverses them:
paths in order, then operations within each path, with paths attached. -/
def flattenOperations (apiData : ExtractedApiData) : List ExtractedOperation :=
  apiData.paths.flatMap (fun pathItem =>
    pathItem.operations.map (withPath pathItem.path))

/-- Lookup of a group by tag (`Map.get`): the single entry with that key. -/
def lookupGroup (groups : List (String × List ExtractedOperation)) (tag : String) :
    Option (List ExtractedOperation) :=
  (groups.find? (fun g => g.1 == tag)).map (fun g => g.2)

theorem groupKeyOf_withPath (pathStr : String) (operation : ExtractedOperation) :
    groupKeyOf (withPath pathStr operation) = groupKeyOf operation := rfl

theorem lookupGroup_addToGroup :
    ∀ (groups : List (String × List ExtractedOperation)) (tag : String)
      (operation : ExtractedOperation) (t : String),
      lookupGroup (addToGroup groups tag operation) t =
        if t = tag then some ((lookupGroup groups t).getD [] ++ [operation])
        else lookupGroup groups t
  | [], tag, operation, t => by
    by_cases h : t = tag
    · subst h
      simp [addToGroup, lookupGroup]
    · simp [addToGroup, lookupGroup, h, Ne.symm h]
  | (k, ops) :: rest, tag, operation, t => by
    unfold addToGroup
    by_cases hk : k = tag
    · subst hk
      by_cases ht : t = k
      · subst ht
        simp [lookupGroup]
      · simp [lookupGroup, ht, Ne.symm ht, if_neg]
    · simp only [hk, if_false]
      by_cases ht : t = k
      · subst ht
        simp [lookupGroup, Ne.symm hk, hk]
      · have ih := lookupGroup_addToGroup rest tag operation t
        have hbk : (k == t) = false := by
          simp only [beq_eq_false_iff_ne, ne_eq]
          exact fun hkt => ht hkt.symm
        have l1 : lookupGroup ((k, ops) :: addToGroup rest tag operation) t
            = lookupGroup (addToGroup rest tag operation) t := by
          simp [lookupGroup, List.find?_cons, hbk]
        have l2 : lookupGroup ((k, ops) :: rest) t = lookupGroup rest t := by
          simp [lookupGroup, List.find?_cons, hbk]
        rw [l1, l2, ih]

theorem addToGroup_keys :
    ∀ (groups : List (String × List ExtractedOperation)) (tag : String)
      (operation : ExtractedOperation),
      (addToGroup groups tag operation).map (fun g => g.1) =
        if (groups.map (fun g => g.1)).contains tag then groups.map (fun g => g.1)
        else groups.map (fun g => g.1) ++ [tag]
  | [], tag, operation => by simp [addToGroup]
  | (k, ops) :: rest, tag, operation => by
    unfold addToGroup
    by_cases hk : k = tag
    · subst hk
      simp [List.contains_cons, List.map_cons]
    · have ih := addToGroup_keys rest tag operation
      have hbk : (tag == k) = false := by
        simp only [beq_eq_false_iff_ne, ne_eq]
        exact fun hkk => hk hkk.symm
      simp only [hk, if_false, List.map_cons, ih, List.contains_cons, hbk, Bool.false_or]
      by_cases hc : (rest.map (fun g => g.1)).contains tag
      · rw [if_pos hc, if_pos hc]
      · rw [if_neg hc, if_neg hc]
        simp

theorem addToGroup_keys_nodup
    (groups : List (String × List ExtractedOperation)) (tag : String)
    (operation : ExtractedOperation)
    (h : (groups.map (fun g => g.1)).Nodup) :
    ((addToGroup groups tag operation).map (fun g => g.1)).Nodup := by
  rw [addToGroup_keys]
  by_cases hc : (groups.map (fun g => g.1)).contains tag
  · rw [if_pos hc]
    exact h
  · rw [if_neg hc]
    rw [List.nodup_append]
    refine ⟨h, List.nodup_singleton tag, ?_⟩
    intro a ha hb
    simp only [List.mem_singleton] at hb
    subst hb
    exact absurd ha (by simpa using hc)

theorem lookupGroup_foldl_add :
    ∀ (ops : List ExtractedOperation) (groups : List (String × List ExtractedOperation))
      (t : String),
      lookupGroup (ops.foldl (fun g o => addToGroup g (groupKeyOf o) o) groups) t =
        match lookupGroup groups t with
        | some l => some (l ++ ops.filter (fun o => groupKeyOf o == t))
        | none =>
          if (ops.filter (fun o => groupKeyOf o == t)).isEmpty then none
          else some (ops.filter (fun o => groupKeyOf o == t))
  | [], groups, t => by
    cases h : lookupGroup groups t with
    | none => simp [h]
    | some l => simp [h]
  | o :: ops, groups, t => by
    simp only [List.foldl_cons]
    have ih := lookupGroup_foldl_add ops (addToGroup groups (groupKeyOf o) o) t
    rw [ih, lookupGroup_addToGroup groups (groupKeyOf o) o t]
    by_cases hkey : t = groupKeyOf o
    · have hbeq : (groupKeyOf o == t) = true := by simp [hkey]
      rw [if_pos hkey]
      simp only [List.filter_cons, hbeq, if_true]
      cases h : lookupGroup groups t with
      | none => simp
      | some l => simp
    · have hbeq : (groupKeyOf o == t) = false := by
        simp only [beq_eq_false_iff_ne, ne_eq]
        exact fun hko => hkey hko.symm
      rw [if_neg hkey]
      simp only [List.filter_cons, hbeq]
      rfl

theorem groupOperationsByTag_eq_flatten_foldl :
    ∀ (paths : List ExtractedPath) (groups : List (String × List ExtractedOperation)),
      paths.foldl (fun g pathItem =>
        pathItem.operations.foldl (fun g operation =>
          addToGroup g (groupKeyOf operation) (withPath pathItem.path operation)) g) groups =
      (paths.flatMap (fun pathItem =>
        pathItem.operations.map (withPath pathItem.path))).foldl
          (fun g o => addToGroup g (groupKeyOf o) o) groups
  | [], groups => by simp
  | pathItem :: paths, groups => by
    simp only [List.foldl_cons, List.flatMap_cons, List.foldl_append]
    rw [groupOperationsByTag_eq_flatten_foldl paths]
    have inner : ∀ (ops : List ExtractedOperation) (g0 : List (String × List ExtractedOperation)),
        ops.foldl (fun g operation =>
          addToGroup g (groupKeyOf operation) (withPath pathItem.path operation)) g0 =
        (ops.map (withPath pathItem.path)).foldl (fun g o => addToGroup g (groupKeyOf o) o) g0 := by
      intro ops
      induction ops with
      | nil => intro g0; rfl
      | cons op rest iho =>
        intro g0
        simp only [List.foldl_cons, List.map_cons, groupKeyOf_withPath]
        exact iho _
    rw [inner]

/-- C6: the emitter partitions IR operations by their first declared tag.
An operation with no tags gets the group key "default"; looking up any tag
in the computed grouping returns exactly the operations whose first tag is
that tag (or "default"), in IR declaration order — paths in order, then
operations within a path — each carrying its path; group keys are unique, so
two operations sharing a first tag land in the same single group. -/
theorem c6_group_operations_by_first_tag :
    (∀ operation : ExtractedOperation, operation.tags = [] →
      groupKeyOf operation = "default") ∧
    (∀ (apiData : ExtractedApiData) (t : String),
      lookupGroup (groupOperationsByTag apiData) t =
        if ((flattenOperations apiData).filter (fun o => groupKeyOf o == t)).isEmpty
        then none
        else some ((flattenOperations apiData).filter (fun o => groupKeyOf o == t))) ∧
    (∀ apiData : ExtractedApiData,
      ((groupOperationsByTag apiData).map (fun g => g.1)).Nodup) := by
  refine ⟨?_, ?_, ?_⟩
  · intro operation h
    simp [groupKeyOf, h]
  · intro apiData t
    unfold groupOperationsByTag flattenOperations
    rw [groupOperationsByTag_eq_flatten_foldl]
    rw [lookupGroup_foldl_add]
    rfl
  · intro apiData
    unfold groupOperationsByTag
    rw [groupOperationsByTag_eq_flatten_foldl]
    generalize (flattenOperations apiData) = ops
    have general : ∀ (l : List ExtractedOperation) (g0 : List (String × List ExtractedOperation)),
        (g0.map (fun g => g.1)).Nodup →
        ((l.foldl (fun g o => addToGroup g (groupKeyOf o) o) g0).map (fun g => g.1)).Nodup := by
      intro l
      induction l with
      | nil => intro g0 h; exact h
      | cons o rest ihl =>
        intro g0 h
        exact ihl _ (addToGroup_keys_nodup g0 (groupKeyOf o) o h)
    exact general _ [] (by simp)

/-- Witness for C6: an operation with no tags is keyed "default", and the
grouping lookup theorem applied to a concrete IR in which two operations
(on different paths) share the first tag "users". -/
theorem c6_group_operations_by_first_tag_witness :
    groupKeyOf { method := "POST", tags := [], parameters := []
                 responses := [], security := [] } = "default" ∧
    lookupGroup (groupOperationsByTag
      { info := { title := "T", version := "1" }
        servers := []
        security := []
        tags := []
        components := ⟨[], [], [], []⟩
        paths := [
          { path := "/a"
            operations := [
              { method := "GET", operationId := some "one", tags := ["users"],
                parameters := [], responses := [], security := [] },
              { method := "POST", operationId := some "untagged", tags := [],
                parameters := [], responses := [], security := [] }]
            parameters := [] },
          { path := "/b"
            operations := [
              { method := "GET", operationId := some "two", tags := ["users"],
                parameters := [], responses := [], security := [] }]
            parameters := [] }] }) "users" =
      (if ((flattenOperations
        { info := { title := "T", version := "1" }
          servers := []
          security := []
          tags := []
          components := ⟨[], [], [], []⟩
          paths := [
            { path := "/a"
              operations := [
                { method := "GET", operationId := some "one", tags := ["users"],
                  parameters := [], responses := [], security := [] },
                { method := "POST", operationId := some "untagged", tags := [],
                  parameters := [], responses := [], security := [] }]
              parameters := [] },
            { path := "/b"
              operations := [
                { method := "GET", operationId := some "two", tags := ["users"],
                  parameters := [], responses := [], security := [] }]
              parameters := [] }] }).filter (fun o => groupKeyOf o == "users")).isEmpty
       then none
       else some ((flattenOperations
        { info := { title := "T", version := "1" }
          servers := []
          security := []
          tags := []
          components := ⟨[], [], [], []⟩
          paths := [
            { path := "/a"
              operations := [
                { method := "GET", operationId := some "one", tags := ["users"],
                  parameters := [], responses := [], security := [] },
                { method := "POST", operationId := some "untagged", tags := [],
                  parameters := [], responses := [], security := [] }]
              parameters := [] },
            { path := "/b"
              operations := [
                { method := "GET", operationId := some "two", tags := ["users"],
                  parameters := [], responses := [], security := [] }]
              parameters := [] }] }).filter (fun o => groupKeyOf o == "users"))) :=
  ⟨c6_group_operations_by_first_tag.1
      { method := "POST", tags := [], parameters := []
        responses := [], security := [] } rfl,
   c6_group_operations_by_first_tag.2.1
      { info := { title := "T", version := "1" }
        servers := []
        security := []
        tags := []
        components := ⟨[], [], [], []⟩
        paths := [
          { path := "/a"
            operations := [
              { method := "GET", operationId := some "one", tags := ["users"],
                parameters := [], responses := [], security := [] },
              { method := "POST", operationId := some "untagged", tags := [],
                parameters := [], responses := [], security := [] }]
            parameters := [] },
          { path := "/b"
            operations := [
              { method := "GET", operationId := some "two", tags := ["users"],
                parameters := [], responses := [], security := [] }]
            parameters := [] }] } "users"⟩

/-! ## EndpointGenerator.getHttpMethod (src/generator/endpoint-generator.ts
lines 94-106) -/

/-- The emitter's method map: `delete` renders as `del` (a reserved word in
the target), and `trace` has no entry. -/
def methodMap (method : String) : Option String :=
  [("get", "get"), ("post", "post"), ("put", "put"), ("patch", "patch"),
   ("delete", "del"), ("head", "head"), ("options", "options")].lookup method

/-- getHttpMethod: look the lowercased method up in the map, falling back to
"get" (`methodMap[method.toLowerCase()] || "get"`). -/
def getHttpMethod (method : String) : String :=
  (methodMap (jsToLowerStr method)).getD "get"

/-- C9: the emitted endpoint constructor name is a total function of the IR
method with "get" as fallback: every method outside the map — in particular
the "TRACE" that the Extractor produces for trace operations and that the
map omits — is silently emitted as "get", while "DELETE" is emitted as
"del", and every possible output is one of the seven constructors. The last
clause runs the Extractor on a path declaring only a trace operation: its
one extracted operation has method "TRACE" and is emitted as "get". -/
theorem c9_method_fallback_to_get :
    getHttpMethod "TRACE" = "get" ∧
    getHttpMethod "DELETE" = "del" ∧
    (∀ method : String, methodMap (jsToLowerStr method) = none →
      getHttpMethod method = "get") ∧
    (∀ method : String, getHttpMethod method ∈
      ["get", "post", "put", "patch", "del", "head", "options"]) ∧
    ((extractPath "/probe"
      { trace := some { responses := [] } }).operations.map
        (fun op => (op.method, getHttpMethod op.method)) = [("TRACE", "get")]) := by
  refine ⟨by decide, by decide, ?_, ?_, by decide⟩
  · intro method h
    simp [getHttpMethod, h]
  · intro method
    unfold getHttpMethod
    cases h : methodMap (jsToLowerStr method) with
    | none => simp
    | some m =>
      unfold methodMap at h
      simp only [List.lookup] at h
      repeat' split at h
      all_goals simp_all

/-- Witness for C9: the fallback clause of `c9_method_fallback_to_get`
applied to the method "TRACE" (which the map omits), and the totality clause
applied to it as well. -/
theorem c9_method_fallback_to_get_witness :
    getHttpMethod "TRACE" = "get" ∧
    getHttpMethod "TRACE" ∈ ["get", "post", "put", "patch", "del", "head", "options"] :=
  ⟨c9_method_fallback_to_get.2.2.1 "TRACE" (by decide),
   c9_method_fallback_to_get.2.2.2.1 "TRACE"⟩

/-! ## Batch parsing with error collection (src/parser/index.ts) -/

/-- Pipeline stage names of ParseError (parser index, lines 578-583). -/
inductive ParseStage where
  | reading
  | validation
  | resolution
  | extraction
deriving DecidableEq

/-- ParseError: the per-file failure record. -/
structure ParseError where
  filePath : String
  stage : ParseStage
  message : String

/-- ParseResult (parser index, lines 567-576): the per-file success record
of the complete pipeline. -/
structure ParseResult where
  filePath : String
  format : DocFormat
  isValid : Bool
  originalDocument : Json
  resolvedDocument : Json
  extractedData : ExtractedApiData
  referencePaths : List String
  validationErrors : List String

/-- The `results.forEach` partition loop shared by parseOpenApiFiles and
parseOpenApiFilesCollectErrors: successes and failures are pushed into two
arrays in input order. -/
def partitionParseResults (results : List (Except ParseError ParseResult)) :
    List ParseResult × List ParseError :=
  results.foldl (fun acc result =>
    match result with
    | .ok success => (acc.1 ++ [success], acc.2)
    | .error failure => (acc.1, acc.2 ++ [failure])) ([], [])

/-- parseOpenApiFilesCollectErrors (parser index, lines 735-766): run every
file through the single-file pipeline independently (`Effect.either` turns
each outcome into a value) and partition outcomes; the function itself never
fails. The single-file pipeline `parseOpenApiFile` reads the filesystem, so
it enters the embedding as the oracle `runFile`. -/
def parseOpenApiFilesCollectErrors (runFile : String → Except ParseError ParseResult)
    (filePaths : List String) : List ParseResult × List ParseError :=
  partitionParseResults (filePaths.map runFile)

theorem partitionParseResults_spec :
    ∀ (results : List (Except ParseError ParseResult)),
      partitionParseResults results =
        (results.filterMap (fun r => r.toOption),
         results.filterMap (fun r =>
           match r with
           | .error e => some e
           | .ok _ => none)) := by
  have general : ∀ (results : List (Except ParseError ParseResult))
      (acc1 : List ParseResult) (acc2 : List ParseError),
      results.foldl (fun acc result =>
        match result with
        | .ok success => (acc.1 ++ [success], acc.2)
        | .error failure => (acc.1, acc.2 ++ [failure])) (acc1, acc2) =
      (acc1 ++ results.filterMap (fun r => r.toOption),
       acc2 ++ results.filterMap (fun r =>
         match r with
         | .error e => some e
         | .ok _ => none)) := by
    intro results
    induction results with
    | nil => intro acc1 acc2; simp
    | cons r rest ih =>
      intro acc1 acc2
      match r with
      | .ok success =>
        simp only [List.foldl_cons, List.filterMap_cons]
        rw [ih]
        simp [Except.toOption]
      | .error failure =>
        simp only [List.foldl_cons, List.filterMap_cons]
        rw [ih]
        simp [Except.toOption]
  intro results
  unfold partitionParseResults
  rw [general]
  simp

/-- C8: the error-collecting batch policy is total and partitions its
inputs. For every oracle and file list, the successes are exactly the files
whose run succeeds and the failures exactly those whose run fails, each file
contributing exactly one entry (the counts add up to the number of files),
and each file's entry is determined by its own run alone: two oracles
agreeing on a file contribute the identical entry for it regardless of all
other files. (Totality is the type: the function returns a plain pair and
has no failure channel.) -/
theorem c8_collect_errors_partitions :
    (∀ (runFile : String → Except ParseError ParseResult) (filePaths : List String),
      (parseOpenApiFilesCollectErrors runFile filePaths).1 =
        filePaths.filterMap (fun fp => (runFile fp).toOption) ∧
      (parseOpenApiFilesCollectErrors runFile filePaths).2 =
        filePaths.filterMap (fun fp =>
          match runFile fp with
          | .error e => some e
          | .ok _ => none) ∧
      (parseOpenApiFilesCollectErrors runFile filePaths).1.length +
        (parseOpenApiFilesCollectErrors runFile filePaths).2.length =
        filePaths.length) ∧
    (∀ (runFile runFile' : String → Except ParseError ParseResult)
       (filePaths : List String),
      (∀ fp ∈ filePaths, runFile fp = runFile' fp) →
      parseOpenApiFilesCollectErrors runFile filePaths =
        parseOpenApiFilesCollectErrors runFile' filePaths) := by
  constructor
  · intro runFile filePaths
    have h := partitionParseResults_spec (filePaths.map runFile)
    unfold parseOpenApiFilesCollectErrors
    rw [h]
    simp only [List.filterMap_map]
    refine ⟨rfl, rfl, ?_⟩
    have hlen : ∀ (results : List (Except ParseError ParseResult)),
        (results.filterMap (fun r => r.toOption)).length +
        (results.filterMap (fun r =>
          match r with
          | .error e => some e
          | .ok _ => none)).length = results.length := by
      intro results
      induction results with
      | nil => simp
      | cons r rest ih =>
        match r with
        | .ok s =>
          simp [Except.toOption] at ih ⊢
          omega
        | .error e =>
          simp [Except.toOption] at ih ⊢
          omega
    have := hlen (filePaths.map runFile)
    simp only [List.filterMap_map] at this
    simpa using this
  · intro runFile runFile' filePaths hagree
    unfold parseOpenApiFilesCollectErrors
    congr 1
    exact List.map_congr_left hagree

/-- Witness for C8: the agreement clause of `c8_collect_errors_partitions`
applied to two concrete oracles that agree on the single listed file, plus
the partition clause at a mixed success/failure batch. -/
theorem c8_collect_errors_partitions_witness :
    (parseOpenApiFilesCollectErrors
      (fun fp => .error ⟨fp, .reading, "boom"⟩) ["a.json"] =
     parseOpenApiFilesCollectErrors
      (fun fp => if fp = "b.json" then .ok
        ⟨fp, .json, true, .null, .null,
          ⟨{ title := "T", version := "1" }, [], [], ⟨[], [], [], []⟩, [], []⟩, [], []⟩
        else .error ⟨fp, .reading, "boom"⟩) ["a.json"]) ∧
    ((parseOpenApiFilesCollectErrors
      (fun fp => .error ⟨fp, .reading, "boom"⟩) ["a.json", "b.json"]).1.length +
     (parseOpenApiFilesCollectErrors
      (fun fp => .error ⟨fp, .reading, "boom"⟩) ["a.json", "b.json"]).2.length = 2) :=
  ⟨c8_collect_errors_partitions.2
      (fun fp => .error ⟨fp, .reading, "boom"⟩)
      (fun fp => if fp = "b.json" then .ok
        ⟨fp, .json, true, .null, .null,
          ⟨{ title := "T", version := "1" }, [], [], ⟨[], [], [], []⟩, [], []⟩, [], []⟩
        else .error ⟨fp, .reading, "boom"⟩)
      ["a.json"]
      (by intro fp hfp; simp at hfp; subst hfp; rfl),
   (c8_collect_errors_partitions.1
      (fun fp => .error ⟨fp, .reading, "boom"⟩) ["a.json", "b.json"]).2.2⟩
